import Mathlib

/- Verification of the prospectivity-mapping core: scoring, target
   extraction, and evidence selection, shallowly embedded from
   apps/api/app/pipeline/scoring.py, targets.py, features.py and run.py.
   Machine floats are modelled as rationals extended with a NaN element:
   NaN propagates through arithmetic and every ordered comparison with
   NaN is false, as in numpy.  Division by zero is mapped to NaN (numpy
   would give an infinity for a nonzero numerator; the theorems below
   restrict divisor parameters to be nonzero wherever that difference
   could matter). -/

/-- A raster cell value: an IEEE float modelled as a rational or NaN. -/
inductive RVal where
  | nan : RVal
  | val : ℚ → RVal
deriving DecidableEq

namespace RVal

/-- Addition with NaN propagation. -/
def add : RVal → RVal → RVal
  | val a, val b => val (a + b)
  | _, _ => nan

/-- Subtraction with NaN propagation. -/
def sub : RVal → RVal → RVal
  | val a, val b => val (a - b)
  | _, _ => nan

/-- Multiplication with NaN propagation (NaN * 0 = NaN, as in IEEE). -/
def mul : RVal → RVal → RVal
  | val a, val b => val (a * b)
  | _, _ => nan

/-- Division with NaN propagation; division by zero is modelled as NaN. -/
def div : RVal → RVal → RVal
  | val a, val b => if b = 0 then nan else val (a / b)
  | _, _ => nan

/-- np.clip: NaN stays NaN, numbers are clamped to [lo, hi]. -/
def clip (v : RVal) (lo hi : ℚ) : RVal :=
  match v with
  | nan => nan
  | val q => val (min hi (max lo q))

/-- Comparison `v < t` as numpy evaluates it: false when `v` is NaN. -/
def ltb (v : RVal) (t : ℚ) : Bool :=
  match v with
  | nan => false
  | val q => q < t

/-- Comparison `v <= t` as numpy evaluates it: false when `v` is NaN. -/
def leb (v : RVal) (t : ℚ) : Bool :=
  match v with
  | nan => false
  | val q => q ≤ t

/-- Comparison `v >= t` as numpy evaluates it: false when `v` is NaN. -/
def geb (v : RVal) (t : ℚ) : Bool :=
  match v with
  | nan => false
  | val q => t ≤ q

/-- Comparison `v > t` as numpy evaluates it: false when `v` is NaN. -/
def gtb (v : RVal) (t : ℚ) : Bool :=
  match v with
  | nan => false
  | val q => t < q

/-- Python float `<` between two values: false whenever either is NaN. -/
def ltv (v w : RVal) : Bool :=
  match v, w with
  | val a, val b => a < b
  | _, _ => false

/-- Python float `==` between two values: false whenever either is NaN. -/
def eqv (v w : RVal) : Bool :=
  match v, w with
  | val a, val b => a = b
  | _, _ => false

/-- The value is a number lying in the unit interval. -/
def inUnitB (v : RVal) : Bool :=
  match v with
  | nan => false
  | val q => 0 ≤ q ∧ q ≤ 1

end RVal

/-- Values of a raster with the NaN entries dropped (what the `nan*`
numpy reductions operate on). -/
def nonNanVals (l : List RVal) : List ℚ :=
  l.filterMap fun v => match v with | RVal.nan => none | RVal.val q => some q

/-- Insert into an ascending-sorted list. -/
def insertAsc (x : ℚ) : List ℚ → List ℚ
  | [] => [x]
  | y :: ys => if x ≤ y then x :: y :: ys else y :: insertAsc x ys

/-- Ascending insertion sort. -/
def sortAsc (l : List ℚ) : List ℚ := l.foldr insertAsc []

/-- np.nanpercentile with the default linear interpolation: sort the
non-NaN values, take rank `p/100 * (n-1)` and interpolate between the
neighbouring order statistics.  An all-NaN input yields NaN (numpy warns
and returns NaN); `p` outside [0,100] (where numpy raises) is mapped to
NaN, and every theorem below restricts `p` to [0,100]. -/
def nanpercentile (l : List RVal) (p : ℚ) : RVal :=
  if p < 0 ∨ 100 < p then RVal.nan else
  match sortAsc (nonNanVals l) with
  | [] => RVal.nan
  | x :: xs =>
    let s := x :: xs
    let n := s.length
    let rank : ℚ := p / 100 * ((n : ℚ) - 1)
    let i : ℕ := (⌊rank⌋).toNat
    let lo := s.getD i x
    let hi := s.getD (min (i + 1) (n - 1)) x
    RVal.val (lo + (rank - (i : ℚ)) * (hi - lo))

/-- Model of `_percentile_scale` (scoring.py): rescale so the `p_low` percentile
maps to 0 and `p_high` to 1, clip to [0,1]; if the two percentile values
coincide the output is `np.zeros_like(data)`, i.e. zero at every pixel,
NaN pixels included. -/
def percentile_scale {n : ℕ} (r : Fin n → RVal) (p_low p_high : ℚ) :
    Fin n → RVal :=
  let lst := List.ofFn r
  let lo := nanpercentile lst p_low
  let hi := nanpercentile lst p_high
  if hi.sub lo = RVal.val 0 then fun _ => RVal.val 0
  else fun i => (((r i).sub lo).div (hi.sub lo)).clip 0 1

/-- Parameter record of the coastal scorer (`coastal_score`, scoring.py):
each key carries the code's explicit default. -/
structure CoastalParams where
  coast_max_m : ℚ := 30000
  slope_max : ℚ := 5
  ndvi_max : ℚ := 1/5
  bsi_percentile : ℚ := 70
  river_max_m : ℚ := 10000
  ndwi_water_max : ℚ := 1/10
  w_coastal_proximity : ℚ := 3/10
  w_slope : ℚ := 1/5
  w_bare_land : ℚ := 1/5
  w_sandiness : ℚ := 1/5
  w_river_proximity : ℚ := 1/10
deriving DecidableEq

/-- Parameter record of the hardrock scorer (`hardrock_score`, scoring.py). -/
structure HardrockParams where
  lineament_percentile : ℚ := 70
  slope_min : ℚ := 2
  slope_max : ℚ := 25
  ndvi_max : ℚ := 2/5
  ndwi_water_max : ℚ := 1/10
  w_lineaments : ℚ := 9/20
  w_relief : ℚ := 1/5
  w_exposure : ℚ := 1/5
  w_geology_boost : ℚ := 3/20
deriving DecidableEq

/-- Resolved hardrock weights as reported in the scorer's metadata. -/
structure HardrockMeta where
  w_lineaments : ℚ
  w_relief : ℚ
  w_exposure : ℚ
  w_geology_boost : ℚ
deriving DecidableEq

/-- A raster restricted to a fixed pixel count: scoring is pointwise
except for the percentile-based layers, so the pixel geometry is
irrelevant here and a raster is a vector of cell values. -/
def Raster (n : ℕ) := Fin n → RVal

/-- The weighted sum of the five clipped coastal sub-scores before the
water mask — the value `score` holds right before `score * water_mask`
in `coastal_score` (scoring.py). -/
def coastal_pre {n : ℕ}
    (ndvi bsi slope dist_coast_m dist_river_m : Raster n)
    (p : CoastalParams) (i : Fin n) : RVal :=
  let coastalS := ((RVal.val 1).sub ((dist_coast_m i).div (RVal.val p.coast_max_m))).clip 0 1
  let slopeS := ((RVal.val 1).sub ((slope i).div (RVal.val p.slope_max))).clip 0 1
  let bareS := ((RVal.val 1).sub ((ndvi i).div (RVal.val p.ndvi_max))).clip 0 1
  let sandS := percentile_scale bsi p.bsi_percentile 98 i
  let riverS := ((RVal.val 1).sub ((dist_river_m i).div (RVal.val p.river_max_m))).clip 0 1
  ((((coastalS.mul (RVal.val p.w_coastal_proximity)).add
      (slopeS.mul (RVal.val p.w_slope))).add
      (bareS.mul (RVal.val p.w_bare_land))).add
      (sandS.mul (RVal.val p.w_sandiness))).add
      (riverS.mul (RVal.val p.w_river_proximity))

/-- Model of `coastal_score` (scoring.py): the weighted sub-score sum
`coastal_pre`, multiplicatively masked by `ndwi < ndwi_water_max` and
clipped to [0,1]; the resolved parameter record is echoed as the
metadata. -/
def coastal_score {n : ℕ}
    (ndvi ndwi bsi slope dist_coast_m dist_river_m : Raster n)
    (p : CoastalParams) : Raster n × CoastalParams :=
  let water_mask : Raster n :=
    fun i => if (ndwi i).ltb p.ndwi_water_max then RVal.val 1 else RVal.val 0
  let score : Raster n := fun i =>
    ((coastal_pre ndvi bsi slope dist_coast_m dist_river_m p i).mul
      (water_mask i)).clip 0 1
  (score, p)

/-- The binary relief sub-score of `hardrock_score` (scoring.py):
1 where `slope_min <= slope <= slope_max` (NaN slopes fail both
comparisons and score 0), 0 elsewhere. -/
def relief_score {n : ℕ} (slope : Raster n) (smin smax : ℚ) : Raster n :=
  fun i => if (slope i).geb smin ∧ (slope i).leb smax
           then RVal.val 1 else RVal.val 0

/-- The weighted hardrock sub-score sum before the water mask — the
value `score` holds right before `score * water_mask` in
`hardrock_score` (scoring.py); the weights are the resolved ones
(divided by their own total when the geology mask is absent). -/
def hardrock_pre {n : ℕ}
    (ndvi slope lineaments : Raster n) (geology_mask : Option (Raster n))
    (p : HardrockParams) (i : Fin n) : RVal :=
  let lineamentS := percentile_scale lineaments p.lineament_percentile 98 i
  let reliefS := relief_score slope p.slope_min p.slope_max i
  let exposureS := ((RVal.val 1).sub ((ndvi i).div (RVal.val p.ndvi_max))).clip 0 1
  match geology_mask with
  | none =>
    let total := p.w_lineaments + p.w_relief + p.w_exposure
    ((lineamentS.mul (RVal.val (p.w_lineaments / total))).add
      (reliefS.mul (RVal.val (p.w_relief / total)))).add
      (exposureS.mul (RVal.val (p.w_exposure / total)))
  | some g =>
    (((lineamentS.mul (RVal.val p.w_lineaments)).add
      (reliefS.mul (RVal.val p.w_relief))).add
      (exposureS.mul (RVal.val p.w_exposure))).add
      ((g i).mul (RVal.val p.w_geology_boost))

/-- Model of `hardrock_score` (scoring.py): the weighted sub-score sum
`hardrock_pre` (with the geology term when the mask is present),
multiplicatively masked by `ndwi < ndwi_water_max` and clipped to
[0,1].  Returns the score raster and the resolved weights reported in
the metadata. -/
def hardrock_score {n : ℕ}
    (ndvi ndwi slope lineaments : Raster n)
    (geology_mask : Option (Raster n))
    (p : HardrockParams) : Raster n × HardrockMeta :=
  let m : HardrockMeta :=
    match geology_mask with
    | none =>
      let total := p.w_lineaments + p.w_relief + p.w_exposure
      { w_lineaments := p.w_lineaments / total
        w_relief := p.w_relief / total
        w_exposure := p.w_exposure / total
        w_geology_boost := 0 }
    | some _ =>
      { w_lineaments := p.w_lineaments
        w_relief := p.w_relief
        w_exposure := p.w_exposure
        w_geology_boost := p.w_geology_boost }
  let water_mask : Raster n :=
    fun i => if (ndwi i).ltb p.ndwi_water_max then RVal.val 1 else RVal.val 0
  let score : Raster n := fun i =>
    ((hardrock_pre ndvi slope lineaments geology_mask p i).mul
      (water_mask i)).clip 0 1
  (score, m)

/-- Pixel coordinates (row, column). -/
abbrev Pix := ℕ × ℕ

/-- The 4-connectivity relation between pixels, as used both by
`skimage.morphology.remove_small_objects` (connectivity=1) and by
`rasterio.features.shapes` (its default). -/
def adjPix (p q : Pix) : Bool :=
  (p.1 == q.1 && (p.2 + 1 == q.2 || q.2 + 1 == p.2)) ||
  (p.2 == q.2 && (p.1 + 1 == q.1 || q.1 + 1 == p.1))

/-- One breadth step of a flood fill inside `univ`: the pixels of `univ`
already reached or adjacent to a reached pixel, kept in `univ` order. -/
def expandOnce (univ cur : List Pix) : List Pix :=
  univ.filter fun p => cur.contains p || cur.any fun q => adjPix p q

/-- Iterated flood fill. -/
def growComp (univ : List Pix) : ℕ → List Pix → List Pix
  | 0, cur => cur
  | k + 1, cur => growComp univ k (expandOnce univ cur)

/-- The 4-connected component of `seed` inside `univ`, as the sublist of
`univ` (in `univ` order) reachable from `seed`; `univ.length` breadth
steps always saturate the fill. -/
def component (univ : List Pix) (seed : Pix) : List Pix :=
  growComp univ univ.length [seed]

/-- The distinct 4-connected components of `univ`, each represented by
its pixel list in `univ` order, ordered by first appearance. -/
def compsList (univ : List Pix) : List (List Pix) :=
  (univ.map (component univ)).dedup

/-- The row-major list of all pixels of an H x W grid. -/
def allPixels (H W : ℕ) : List Pix :=
  (List.range H).flatMap fun r => (List.range W).map fun c => (r, c)

/-- Python `int()` on a rational: truncation toward zero. -/
def pyTrunc (q : ℚ) : ℤ :=
  if 0 ≤ q then ⌊q⌋ else -⌊-q⌋

/-- np.nanmean over a pixel population: mean of the non-NaN values, NaN
when every value is NaN. -/
def nanmean (l : List RVal) : RVal :=
  let qs := nonNanVals l
  if qs.isEmpty then RVal.nan else RVal.val (qs.sum / (qs.length : ℚ))

/-- np.nanmax over a pixel population: max of the non-NaN values, NaN
when every value is NaN. -/
def nanmax (l : List RVal) : RVal :=
  match nonNanVals l with
  | [] => RVal.nan
  | x :: xs => RVal.val (xs.foldl max x)

/-- Scoring mode. -/
inductive Mode where
  | coastal : Mode
  | hardrock : Mode
deriving DecidableEq

/-- Coastal evidence layers handed to `extract_targets` by run.py. -/
structure CoastalLayers where
  ndvi : Pix → RVal
  ndwi : Pix → RVal
  bsi : Pix → RVal
  slope : Pix → RVal
  dist_coast : Pix → RVal
  dist_river : Pix → RVal

/-- Coastal evidence thresholds (resolved values, run.py). -/
structure CoastalThr where
  slope_max : ℚ
  ndvi_max : ℚ
  bsi_threshold_value : ℚ
  coast_max_m : ℚ
  river_max_m : ℚ
deriving DecidableEq

/-- Hardrock evidence layers; the geology mask layer is present exactly
when `_rasterize_geology` produced one (run.py adds the key
conditionally). -/
structure HardrockLayers where
  ndvi : Pix → RVal
  ndwi : Pix → RVal
  slope : Pix → RVal
  lineaments : Pix → RVal
  geology_mask : Option (Pix → RVal)

/-- Hardrock evidence thresholds (resolved values, run.py). -/
structure HardrockThr where
  slope_min : ℚ
  slope_max : ℚ
  ndvi_max : ℚ
  lineament_threshold_value : ℚ
deriving DecidableEq

/-- Mode-specific evidence context: layers plus thresholds. -/
inductive EvidenceCtx where
  | coastal (L : CoastalLayers) (T : CoastalThr) : EvidenceCtx
  | hardrock (L : HardrockLayers) (T : HardrockThr) : EvidenceCtx

/-- The mode of an evidence context. -/
def modeOf : EvidenceCtx → Mode
  | .coastal _ _ => Mode.coastal
  | .hardrock _ _ => Mode.hardrock

/-- Model of `_pct` of compute_evidence (targets.py): fraction of the polygon's
pixels satisfying a threshold test, 0.0 on an empty population; NaN
values fail every test, as in numpy. -/
def pctOf (vs : List RVal) (test : RVal → Bool) : RVal :=
  if vs.isEmpty then RVal.val 0
  else RVal.val ((vs.countP test : ℚ) / (vs.length : ℚ))

/-- Model of `compute_evidence` (targets.py): the named diagnostic metrics of one
polygon, in the dict insertion order of the source. -/
def compute_evidence (ectx : EvidenceCtx) (polyMask : List Pix) :
    List (String × RVal) :=
  match ectx with
  | .coastal L T =>
    [("ndvi_mean", nanmean (polyMask.map L.ndvi)),
     ("ndwi_mean", nanmean (polyMask.map L.ndwi)),
     ("bsi_mean", nanmean (polyMask.map L.bsi)),
     ("slope_mean", nanmean (polyMask.map L.slope)),
     ("dist_coast_mean_m", nanmean (polyMask.map L.dist_coast)),
     ("dist_river_mean_m", nanmean (polyMask.map L.dist_river)),
     ("pct_low_slope", pctOf (polyMask.map L.slope) (fun v => v.leb T.slope_max)),
     ("pct_low_ndvi", pctOf (polyMask.map L.ndvi) (fun v => v.leb T.ndvi_max)),
     ("pct_high_bsi", pctOf (polyMask.map L.bsi) (fun v => v.geb T.bsi_threshold_value)),
     ("pct_near_coast", pctOf (polyMask.map L.dist_coast) (fun v => v.leb T.coast_max_m)),
     ("pct_near_river", pctOf (polyMask.map L.dist_river) (fun v => v.leb T.river_max_m))]
  | .hardrock L T =>
    [("ndvi_mean", nanmean (polyMask.map L.ndvi)),
     ("ndwi_mean", nanmean (polyMask.map L.ndwi)),
     ("slope_mean", nanmean (polyMask.map L.slope)),
     ("lineament_mean", nanmean (polyMask.map L.lineaments)),
     ("geology_mask_mean",
       match L.geology_mask with
       | some gm => nanmean (polyMask.map gm)
       | none => RVal.val 0),
     ("pct_lineament_high",
       pctOf (polyMask.map L.lineaments) (fun v => v.geb T.lineament_threshold_value)),
     ("pct_relief",
       pctOf (polyMask.map L.slope) (fun v => v.geb T.slope_min && v.leb T.slope_max)),
     ("pct_low_ndvi", pctOf (polyMask.map L.ndvi) (fun v => v.leb T.ndvi_max)),
     ("pct_geology_match",
       match L.geology_mask with
       | some gm => pctOf (polyMask.map gm) (fun v => v.geb (1/2))
       | none => RVal.val 0)]

/-- Python dict `.get(key, 0)` over the evidence map. -/
def lookupEv (ev : List (String × RVal)) (k : String) : RVal :=
  match ev.find? (fun e => e.1 == k) with
  | some e => e.2
  | none => RVal.val 0

/-- Insert keeping a stable descending order: the new element goes after
every earlier element it is not strictly greater than. -/
def insertDescBy {α : Type} (lt : α → α → Bool) (x : α) : List α → List α
  | [] => [x]
  | y :: ys => if lt y x then x :: y :: ys else y :: insertDescBy lt x ys

/-- Stable descending sort: the model of CPython's stable
`list.sort(key=..., reverse=True)`. -/
def sortDescBy {α : Type} (lt : α → α → Bool) (l : List α) : List α :=
  l.foldl (fun acc x => insertDescBy lt x acc) []

/-- The fixed mode-specific ordered candidate list of `evidence_chips`
(targets.py), in source order; in hardrock mode the lithology candidate
is appended only when its metric is strictly positive. -/
def chipCandidates (ev : List (String × RVal)) (mode : Mode) :
    List (String × RVal) :=
  match mode with
  | Mode.coastal =>
    [("Near coastline (<30 km)", lookupEv ev "pct_near_coast"),
     ("Low slope (<=5°)", lookupEv ev "pct_low_slope"),
     ("Low vegetation (NDVI<=0.2)", lookupEv ev "pct_low_ndvi"),
     ("High sandiness (BSI top 30%)", lookupEv ev "pct_high_bsi"),
     ("Near rivers", lookupEv ev "pct_near_river")]
  | Mode.hardrock =>
    [("High lineament density", lookupEv ev "pct_lineament_high"),
     ("Moderate relief (2–25°)", lookupEv ev "pct_relief"),
     ("Low vegetation (NDVI<=0.4)", lookupEv ev "pct_low_ndvi")] ++
    (if (lookupEv ev "pct_geology_match").gtb 0
     then [("Favorable lithology match", lookupEv ev "pct_geology_match")]
     else [])

/-- Model of `evidence_chips` (targets.py): stable-sort the candidate list
descending by metric, truncate to three, keep the strictly positive
ones and return the labels. -/
def evidence_chips (ev : List (String × RVal)) (mode : Mode) : List String :=
  let sorted := sortDescBy (fun a b => RVal.ltv a.2 b.2) (chipCandidates ev mode)
  ((sorted.take 3).filter (fun c => c.2.gtb 0)).map Prod.fst

/-- Grid geometry of the score raster, as far as `extract_targets`
consults it.  `pixelAreaGeoKm2` stands for the geodesic `_area_km2` of
the (0,0)-(1,1) pixel polygon computed through pyproj when the CRS is
geographic. -/
structure Grid where
  H : ℕ
  W : ℕ
  crsIsWgs84 : Bool
  pixelAreaGeoKm2 : ℚ
  xres : ℚ
  yres : ℚ

/-- A target record, with the polygon geometry represented by its
component's pixel set; the geodesic polygon area and the centroid are
supplied by the abstract geometry functions below. -/
structure Target where
  id : String
  pixels : List Pix
  area_km2 : ℚ
  centroid : ℚ × ℚ
  mean_score : RVal
  max_score : RVal
  distance_to_road_m : Option ℚ
  distance_to_river_m : Option ℚ
  evidence : List (String × RVal)
  evidence_summary : List String
deriving DecidableEq

/-- Python float tuple comparison `(mean_score, area_km2) < ...`, the
sort key comparison of `targets.sort(..., reverse=True)`. -/
def targLt (a b : Target) : Bool :=
  if a.mean_score.eqv b.mean_score then decide (a.area_km2 < b.area_km2)
  else a.mean_score.ltv b.mean_score

/-- Model of `extract_targets` (targets.py).  The external geometry computations
are abstracted into explicit deterministic function parameters:
`areaFn` is `_area_km2` (pyproj geodesic area of the vectorized
polygon), `centroidFn` the shapely centroid, `roadsDist`/`riversDist`
are `_distance_to_lines(poly, roads_gdf)`/`(poly, rivers_gdf)` (modelled
on their own below for C9).  `ids` is the stream of `uuid.uuid4()`
draws, the only non-input-determined quantity of the source; draw `k` is
consumed by the `k`-th emitted target.  Pipeline mirrored from the
source: threshold mask (NaN scores fail the `>=`), pixel-count cleanup
`remove_small_objects` (the pixel area being geodesic for EPSG:4326 and
`|xres*yres|`-based otherwise, `min_size = max(int(min_area/pixel_area), 1)`),
one polygon per surviving 4-connected component, exact-area filter,
per-polygon nanmean/nanmax score statistics, evidence and chips,
distances, then a stable descending sort by `(mean_score, area_km2)`. -/
def extract_targets (g : Grid) (score : Pix → RVal)
    (threshold min_area_km2 : ℚ) (ectx : EvidenceCtx)
    (areaFn : List Pix → ℚ) (centroidFn : List Pix → ℚ × ℚ)
    (roadsDist riversDist : List Pix → Option ℚ)
    (ids : ℕ → String) : List Target :=
  let maskPx := (allPixels g.H g.W).filter fun p => (score p).geb threshold
  let pixel_area := if g.crsIsWgs84 then g.pixelAreaGeoKm2
                    else |g.xres * g.yres| / 1000000
  let min_size_px : ℕ := (max (pyTrunc (min_area_km2 / pixel_area)) 1).toNat
  let bigPx := maskPx.filter fun p => min_size_px ≤ (component maskPx p).length
  let comps := compsList bigPx
  let kept := comps.filter fun c => ! decide (areaFn c < min_area_km2)
  let mk : ℕ × List Pix → Target := fun e =>
    let scores := e.2.map score
    let ev := compute_evidence ectx e.2
    { id := ids e.1
      pixels := e.2
      area_km2 := areaFn e.2
      centroid := centroidFn e.2
      mean_score := nanmean scores
      max_score := nanmax scores
      distance_to_road_m := roadsDist e.2
      distance_to_river_m := riversDist e.2
      evidence := ev
      evidence_summary := evidence_chips ev (modeOf ectx) }
  sortDescBy targLt (kept.enum.map mk)

/-- Reference grid handed to `distance_raster` (features.py): shape,
optional CRS tag and resolution. -/
structure RefGrid where
  H : ℕ
  W : ℕ
  crs : Option String
  xres : ℚ
  yres : ℚ

/-- Squared pixel distance, the quantity whose square root the Euclidean
distance transform assigns. -/
def sqPixDist (p q : Pix) : ℤ :=
  ((p.1 : ℤ) - (q.1 : ℤ)) ^ 2 + ((p.2 : ℤ) - (q.2 : ℤ)) ^ 2

/-- Stand-in for scipy's infinite distance on a mask with no foreground
pixel; only its non-negativity is ever relied upon. -/
def bigSq : ℤ := 10 ^ 18

/-- Minimum squared pixel distance from `p` to the mask pixels: the core
of `scipy.ndimage.distance_transform_edt` applied to `1 - raster`. -/
def minSqDist (mask : List Pix) (p : Pix) : ℤ :=
  match mask.map (sqPixDist p) with
  | [] => bigSq
  | x :: xs => xs.foldl min x

/-- Model of `distance_raster` (features.py).  The external
`rasterio.features.rasterize` (after the `to_crs` reprojection) is
abstracted into the `rasterize` parameter giving the burned-in pixel
mask of a geometry list, and `emptyG` is shapely's `is_empty`.  A grid
without CRS, an absent or empty feature set, or a feature set with only
empty geometries yields the constant sentinel raster 1e6; otherwise each
pixel gets the Euclidean distance in pixels to the nearest rasterized
pixel, scaled by `abs(xres)`. -/
noncomputable def distance_raster {G : Type} (g : RefGrid)
    (lines : Option (List G)) (emptyG : G → Bool)
    (rasterize : List G → Pix → Bool) : Pix → ℝ :=
  if g.crs = none then fun _ => 1000000 else
  match lines with
  | none => fun _ => 1000000
  | some l =>
    if l.isEmpty then fun _ => 1000000 else
    let shapes := l.filter fun x => ! emptyG x
    if shapes.isEmpty then fun _ => 1000000 else
    let maskPx := (allPixels g.H g.W).filter (rasterize shapes)
    fun p => Real.sqrt ((minSqDist maskPx p : ℤ) : ℝ) * ((|g.xres| : ℚ) : ℝ)

/-- Two-digit zero padding, Python's `f"{zone:02d}"` for the zone range. -/
def pad2 (z : ℤ) : String :=
  if 0 ≤ z ∧ z < 10 then "0" ++ toString z else toString z

/-- Model of `_utm_crs_from_lonlat` (targets.py): `zone = int((lon+180)/6) + 1`
(Python `int` truncates toward zero), hemisphere prefix 326 for
`lat >= 0` and 327 otherwise. -/
def utm_crs_from_lonlat (lon lat : ℚ) : String :=
  let zone := pyTrunc ((lon + 180) / 6) + 1
  let hemisphere := if 0 ≤ lat then "326" else "327"
  "EPSG:" ++ hemisphere ++ pad2 zone

/-- Points of the projected plane in which shapely measures planar
distances. -/
abbrev PlanePt := EuclideanSpace ℝ (Fin 2)

/-- Planar distance between two point sets: the infimum of pairwise
Euclidean distances, shapely's `geom.distance(other)`. -/
noncomputable def setDist (A B : Set PlanePt) : ℝ :=
  sInf {d : ℝ | ∃ a ∈ A, ∃ b ∈ B, dist a b = d}

/-- Model of `_distance_to_lines` (targets.py).  A geometry is modelled as its
set of points in lon/lat coordinates; `proj crs` is the pyproj
transformer from EPSG:4326 into `crs` (applied by `shp_transform` to the
polygon and by `to_crs` to the feature set, whose `unary_union` is the
union of its members); `centroid` is the polygon's shapely centroid.
Returns None exactly on an absent or empty feature set, else the planar
distance measured in the UTM CRS derived from the centroid. -/
noncomputable def distance_to_lines (geom : Set (ℚ × ℚ)) (centroid : ℚ × ℚ)
    (gdf : Option (List (Set (ℚ × ℚ))))
    (proj : String → (ℚ × ℚ) → PlanePt) : Option ℝ :=
  match gdf with
  | none => none
  | some gs =>
    if gs.isEmpty then none else
    let f := proj (utm_crs_from_lonlat centroid.1 centroid.2)
    let union : Set (ℚ × ℚ) := {pt | ∃ g ∈ gs, pt ∈ g}
    some (setDist (f '' geom) (f '' union))

/-- ASCII lowercase of one character, the fragment of Python's
`str.lower` exercised by the keyword alphabet. -/
def lowerChar (c : Char) : Char :=
  if 'A' ≤ c ∧ c ≤ 'Z' then Char.ofNat (c.toNat + 32) else c

/-- Python `" ".join(...)` on the property values of a feature. -/
def joinSpace : List (List Char) → List Char
  | [] => []
  | [x] => x
  | x :: xs => x ++ ' ' :: joinSpace xs

/-- Substring test, Python's `k in text`. -/
def containsSub (needle hay : List Char) : Bool :=
  (List.range (hay.length + 1)).any fun i => needle.isPrefixOf (hay.drop i)

/-- The fixed lithology keyword list of `_rasterize_geology` (run.py). -/
def lithologyKeywords : List (List Char) :=
  ["carbonatite".data, "alkaline".data, "syenite".data, "ijolite".data,
   "nepheline".data, "granite pegmatite".data, "ree".data,
   "monazite".data, "bastnaesite".data]

/-- One GeoJSON feature as `_rasterize_geology` consumes it: the
stringified property values and the optional geometry. -/
structure GeoFeature (G : Type) where
  props : List String
  geometry : Option G

/-- The keyword test of `_rasterize_geology`: join the property value
strings with spaces, lowercase, and look for any lithology keyword as a
substring. -/
def featureMatches {G : Type} (f : GeoFeature G) : Bool :=
  let text := (joinSpace (f.props.map String.data)).map lowerChar
  lithologyKeywords.any fun k => containsSub k text

/-- Model of `_rasterize_geology` (run.py): None on an absent collection, on a
collection in which no feature passes the keyword test (or the passing
features lack geometries), and when every kept geometry is empty;
otherwise the burned-in 0/1 float mask over the reference grid, with
the external rasterization abstracted as in `distance_raster`. -/
def rasterize_geology {G : Type} (geojson : Option (List (GeoFeature G)))
    (emptyG : G → Bool) (rast : List G → Pix → Bool) :
    Option (Pix → RVal) :=
  match geojson with
  | none => none
  | some feats =>
    let records := (feats.filter featureMatches).filterMap fun f => f.geometry
    if records.isEmpty then none else
    let shapes := records.filter fun gm => ! emptyG gm
    if shapes.isEmpty then none else
    some fun p => if rast shapes p then RVal.val 1 else RVal.val 0

/-- The value is a number lying in the unit interval (Prop form). -/
def RVal.inUnit (v : RVal) : Prop := ∃ q, v = RVal.val q ∧ 0 ≤ q ∧ q ≤ 1

@[simp] lemma rval_add_nan_left (x : RVal) : RVal.add RVal.nan x = RVal.nan := by
  cases x <;> rfl

@[simp] lemma rval_add_nan_right (x : RVal) : RVal.add x RVal.nan = RVal.nan := by
  cases x <;> rfl

@[simp] lemma rval_add_val_val (a b : ℚ) :
    RVal.add (RVal.val a) (RVal.val b) = RVal.val (a + b) := rfl

@[simp] lemma rval_sub_nan_left (x : RVal) : RVal.sub RVal.nan x = RVal.nan := by
  cases x <;> rfl

@[simp] lemma rval_sub_nan_right (x : RVal) : RVal.sub x RVal.nan = RVal.nan := by
  cases x <;> rfl

@[simp] lemma rval_sub_val_val (a b : ℚ) :
    RVal.sub (RVal.val a) (RVal.val b) = RVal.val (a - b) := rfl

@[simp] lemma rval_mul_nan_left (x : RVal) : RVal.mul RVal.nan x = RVal.nan := by
  cases x <;> rfl

@[simp] lemma rval_mul_nan_right (x : RVal) : RVal.mul x RVal.nan = RVal.nan := by
  cases x <;> rfl

@[simp] lemma rval_mul_val_val (a b : ℚ) :
    RVal.mul (RVal.val a) (RVal.val b) = RVal.val (a * b) := rfl

@[simp] lemma rval_div_nan_left (x : RVal) : RVal.div RVal.nan x = RVal.nan := by
  cases x <;> rfl

@[simp] lemma rval_div_nan_right (x : RVal) : RVal.div x RVal.nan = RVal.nan := by
  cases x <;> rfl

lemma rval_div_val_val (a b : ℚ) :
    RVal.div (RVal.val a) (RVal.val b) =
      if b = 0 then RVal.nan else RVal.val (a / b) := rfl

@[simp] lemma rval_clip_nan (lo hi : ℚ) : RVal.clip RVal.nan lo hi = RVal.nan := rfl

@[simp] lemma rval_clip_val (q lo hi : ℚ) :
    RVal.clip (RVal.val q) lo hi = RVal.val (min hi (max lo q)) := rfl

@[simp] lemma rval_ltb_nan (t : ℚ) : RVal.ltb RVal.nan t = false := rfl

@[simp] lemma rval_ltb_val (q t : ℚ) : RVal.ltb (RVal.val q) t = decide (q < t) := rfl

@[simp] lemma rval_geb_nan (t : ℚ) : RVal.geb RVal.nan t = false := rfl

@[simp] lemma rval_geb_val (q t : ℚ) : RVal.geb (RVal.val q) t = decide (t ≤ q) := rfl

@[simp] lemma rval_leb_nan (t : ℚ) : RVal.leb RVal.nan t = false := rfl

@[simp] lemma rval_leb_val (q t : ℚ) : RVal.leb (RVal.val q) t = decide (q ≤ t) := rfl

section
attribute [local semireducible] Rat.add Rat.mul Rat.sub Rat.inv

/-- C1 counterexample: at the default hardrock parameter record with no
lithology layer, the rescaled weights reported in the metadata sum to 1,
while the original three weights sum to 17/20; the claimed equality of
the two sums fails. -/
theorem c1_weight_sum_counterexample :
    (let m := (hardrock_score (n := 1) (fun _ => RVal.val 0) (fun _ => RVal.val 0)
        (fun _ => RVal.val 0) (fun _ => RVal.val 0) none {}).2
     m.w_lineaments + m.w_relief + m.w_exposure = 1) ∧
    (({} : HardrockParams).w_lineaments + ({} : HardrockParams).w_relief +
        ({} : HardrockParams).w_exposure = 17/20) ∧
    (1 : ℚ) ≠ 17/20 := by
  refine ⟨by decide, by decide, by decide⟩

/-- C1 (amended): with the lithology layer absent, the three remaining
weights are each divided by their own total, so the resolved weights sum
to 1 (not to the original three-term total) while preserving their
relative proportions, and the metadata reports geology_boost = 0; with
the layer present, all four weights are reported exactly as given. -/
theorem c1_hardrock_weight_resolution {n : ℕ}
    (ndvi ndwi slope lineaments : Raster n) (geology : Option (Raster n))
    (p : HardrockParams)
    (htot : p.w_lineaments + p.w_relief + p.w_exposure ≠ 0) :
    (geology = none →
      (hardrock_score ndvi ndwi slope lineaments geology p).2.w_lineaments +
        (hardrock_score ndvi ndwi slope lineaments geology p).2.w_relief +
        (hardrock_score ndvi ndwi slope lineaments geology p).2.w_exposure = 1 ∧
      (hardrock_score ndvi ndwi slope lineaments geology p).2.w_geology_boost = 0 ∧
      (hardrock_score ndvi ndwi slope lineaments geology p).2.w_lineaments * p.w_relief =
        (hardrock_score ndvi ndwi slope lineaments geology p).2.w_relief * p.w_lineaments ∧
      (hardrock_score ndvi ndwi slope lineaments geology p).2.w_relief * p.w_exposure =
        (hardrock_score ndvi ndwi slope lineaments geology p).2.w_exposure * p.w_relief ∧
      (hardrock_score ndvi ndwi slope lineaments geology p).2.w_lineaments * p.w_exposure =
        (hardrock_score ndvi ndwi slope lineaments geology p).2.w_exposure * p.w_lineaments) ∧
    (∀ gmask, geology = some gmask →
      (hardrock_score ndvi ndwi slope lineaments geology p).2 =
        { w_lineaments := p.w_lineaments, w_relief := p.w_relief,
          w_exposure := p.w_exposure, w_geology_boost := p.w_geology_boost }) := by
  constructor
  · rintro rfl
    refine ⟨?_, rfl, ?_, ?_, ?_⟩
    · show p.w_lineaments / (p.w_lineaments + p.w_relief + p.w_exposure) +
          p.w_relief / (p.w_lineaments + p.w_relief + p.w_exposure) +
          p.w_exposure / (p.w_lineaments + p.w_relief + p.w_exposure) = 1
      field_simp
    · show p.w_lineaments / _ * p.w_relief = p.w_relief / _ * p.w_lineaments
      ring
    · show p.w_relief / _ * p.w_exposure = p.w_exposure / _ * p.w_relief
      ring
    · show p.w_lineaments / _ * p.w_exposure = p.w_exposure / _ * p.w_lineaments
      ring
  · rintro gmask rfl
    rfl

/-- C1 witness: the amended statement instantiated at the default
parameter record with no lithology layer. -/
theorem c1_hardrock_weight_resolution_witness :
    (hardrock_score (n := 1) (fun _ => RVal.val 0) (fun _ => RVal.val 0)
        (fun _ => RVal.val 0) (fun _ => RVal.val 0) none {}).2.w_lineaments +
      (hardrock_score (n := 1) (fun _ => RVal.val 0) (fun _ => RVal.val 0)
        (fun _ => RVal.val 0) (fun _ => RVal.val 0) none {}).2.w_relief +
      (hardrock_score (n := 1) (fun _ => RVal.val 0) (fun _ => RVal.val 0)
        (fun _ => RVal.val 0) (fun _ => RVal.val 0) none {}).2.w_exposure = 1 ∧
    (hardrock_score (n := 1) (fun _ => RVal.val 0) (fun _ => RVal.val 0)
        (fun _ => RVal.val 0) (fun _ => RVal.val 0) none {}).2.w_geology_boost = 0 := by
  have h := c1_hardrock_weight_resolution (n := 1) (fun _ => RVal.val 0)
    (fun _ => RVal.val 0) (fun _ => RVal.val 0) (fun _ => RVal.val 0) none {}
    (by norm_num)
  exact ⟨(h.1 rfl).1, (h.1 rfl).2.1⟩

end

section
attribute [local semireducible] Rat.add Rat.mul Rat.sub Rat.inv

/-- A target with its random UUID erased; every other field is kept. -/
def eraseId (t : Target) : Target := { t with id := "" }

lemma targLt_congr_of_eraseId (a₁ a₂ b₁ b₂ : Target)
    (ha : eraseId a₁ = eraseId a₂) (hb : eraseId b₁ = eraseId b₂) :
    targLt a₁ b₁ = targLt a₂ b₂ := by
  cases a₁; cases a₂; cases b₁; cases b₂
  simp only [eraseId, Target.mk.injEq, true_and] at ha hb
  obtain ⟨-, ha_area, -, ha_mean, -, -, -, -, -⟩ := ha
  obtain ⟨-, hb_area, -, hb_mean, -, -, -, -, -⟩ := hb
  simp [targLt, ha_area, ha_mean, hb_area, hb_mean]

lemma map_eraseId_insertDescBy (x₁ x₂ : Target) :
    ∀ (acc₁ acc₂ : List Target), eraseId x₁ = eraseId x₂ →
    acc₁.map eraseId = acc₂.map eraseId →
    (insertDescBy targLt x₁ acc₁).map eraseId =
      (insertDescBy targLt x₂ acc₂).map eraseId
  | [], acc₂, hx, hacc => by
    have : acc₂ = [] := by
      cases acc₂ with
      | nil => rfl
      | cons y t => simp at hacc
    subst this
    simpa [insertDescBy] using hx
  | y₁ :: t₁, acc₂, hx, hacc => by
    cases acc₂ with
    | nil => simp at hacc
    | cons y₂ t₂ =>
      simp only [List.map_cons, List.cons.injEq] at hacc
      obtain ⟨hy, ht⟩ := hacc
      have hlt : targLt y₁ x₁ = targLt y₂ x₂ := targLt_congr_of_eraseId _ _ _ _ hy hx
      by_cases h : targLt y₁ x₁ = true
      · simp [insertDescBy, h, hlt ▸ h, hx, hy, ht]
      · have h2 : targLt y₂ x₂ = false := by rw [← hlt]; exact Bool.not_eq_true _ |>.mp h
        have h1 : targLt y₁ x₁ = false := Bool.not_eq_true _ |>.mp h
        simp only [insertDescBy, h1, h2, Bool.false_eq_true, if_false, List.map_cons, hy,
          List.cons.injEq, true_and]
        exact map_eraseId_insertDescBy x₁ x₂ t₁ t₂ hx ht

lemma map_eraseId_foldl_insert :
    ∀ (l₁ l₂ acc₁ acc₂ : List Target), l₁.map eraseId = l₂.map eraseId →
    acc₁.map eraseId = acc₂.map eraseId →
    (l₁.foldl (fun acc x => insertDescBy targLt x acc) acc₁).map eraseId =
      (l₂.foldl (fun acc x => insertDescBy targLt x acc) acc₂).map eraseId
  | [], l₂, acc₁, acc₂, hl, hacc => by
    have : l₂ = [] := by
      cases l₂ with
      | nil => rfl
      | cons y t => simp at hl
    subst this
    simpa using hacc
  | x₁ :: t₁, l₂, acc₁, acc₂, hl, hacc => by
    cases l₂ with
    | nil => simp at hl
    | cons x₂ t₂ =>
      simp only [List.map_cons, List.cons.injEq] at hl
      obtain ⟨hx, ht⟩ := hl
      simp only [List.foldl_cons]
      exact map_eraseId_foldl_insert t₁ t₂ _ _ ht
        (map_eraseId_insertDescBy x₁ x₂ acc₁ acc₂ hx hacc)

/-- C2 (amended): erasing the randomly drawn `id` field, the output of
`extract_targets` is a deterministic function of its inputs: two
invocations differing only in the UUID stream agree on every target and
every field except `id`. -/
theorem c2_extract_targets_deterministic_modulo_id
    (g : Grid) (score : Pix → RVal) (threshold min_area_km2 : ℚ)
    (ectx : EvidenceCtx) (areaFn : List Pix → ℚ)
    (centroidFn : List Pix → ℚ × ℚ)
    (roadsDist riversDist : List Pix → Option ℚ) (ids₁ ids₂ : ℕ → String) :
    (extract_targets g score threshold min_area_km2 ectx areaFn centroidFn
        roadsDist riversDist ids₁).map eraseId =
      (extract_targets g score threshold min_area_km2 ectx areaFn centroidFn
        roadsDist riversDist ids₂).map eraseId := by
  simp only [extract_targets, sortDescBy]
  apply map_eraseId_foldl_insert _ _ [] [] _ rfl
  simp only [List.map_map]
  rfl

/-- Concrete 1x1 projected grid whose single pixel is 1 km2. -/
def c2Grid : Grid :=
  { H := 1, W := 1, crsIsWgs84 := false, pixelAreaGeoKm2 := 0,
    xres := 1000, yres := 1000 }

/-- Constant-zero coastal evidence layers. -/
def c2Layers : CoastalLayers :=
  { ndvi := fun _ => RVal.val 0, ndwi := fun _ => RVal.val 0,
    bsi := fun _ => RVal.val 0, slope := fun _ => RVal.val 0,
    dist_coast := fun _ => RVal.val 0, dist_river := fun _ => RVal.val 0 }

/-- Zero coastal evidence thresholds. -/
def c2Thr : CoastalThr :=
  { slope_max := 0, ndvi_max := 0, bsi_threshold_value := 0,
    coast_max_m := 0, river_max_m := 0 }

/-- A 1x1 run of `extract_targets` that emits one target, parameterised
by the UUID stream. -/
def c2Run (ids : ℕ → String) : List Target :=
  extract_targets c2Grid (fun _ => RVal.val 1) 0 0
    (EvidenceCtx.coastal c2Layers c2Thr) (fun _ => 1) (fun _ => (0, 0))
    (fun _ => none) (fun _ => none) ids

/-- C2 counterexample: two invocations of `extract_targets` on identical
raster, threshold and geometry inputs, differing only in the random
UUID draws, emit target lists that are not equal in all fields (the `id`
fields differ), so the claimed full determinism fails. -/
theorem c2_determinism_counterexample :
    c2Run (fun _ => "a") ≠ c2Run (fun _ => "b") := by decide

lemma mem_insertDescBy {α : Type} (lt : α → α → Bool) (x a : α) :
    ∀ l : List α, a ∈ insertDescBy lt x l ↔ a = x ∨ a ∈ l
  | [] => by simp [insertDescBy]
  | y :: ys => by
    by_cases h : lt y x = true
    · simp [insertDescBy, h]
    · simp only [insertDescBy, h, Bool.false_eq_true, if_false, List.mem_cons,
        mem_insertDescBy lt x a ys]
      tauto

lemma mem_foldl_insertDescBy {α : Type} (lt : α → α → Bool) (a : α) :
    ∀ (l acc : List α),
      (a ∈ l.foldl (fun acc x => insertDescBy lt x acc) acc) ↔ a ∈ acc ∨ a ∈ l
  | [], acc => by simp
  | x :: t, acc => by
    simp only [List.foldl_cons, mem_foldl_insertDescBy lt a t _,
      mem_insertDescBy, List.mem_cons]
    tauto

lemma mem_sortDescBy {α : Type} (lt : α → α → Bool) (a : α) (l : List α) :
    a ∈ sortDescBy lt l ↔ a ∈ l := by
  simp [sortDescBy, mem_foldl_insertDescBy]

lemma length_insertDescBy {α : Type} (lt : α → α → Bool) (x : α) :
    ∀ l : List α, (insertDescBy lt x l).length = l.length + 1
  | [] => rfl
  | y :: ys => by
    by_cases h : lt y x = true
    · simp [insertDescBy, h]
    · simp [insertDescBy, h, length_insertDescBy lt x ys]

lemma length_foldl_insertDescBy {α : Type} (lt : α → α → Bool) :
    ∀ (l acc : List α),
      (l.foldl (fun acc x => insertDescBy lt x acc) acc).length =
        acc.length + l.length
  | [], acc => by simp
  | x :: t, acc => by
    simp only [List.foldl_cons, length_foldl_insertDescBy lt t _,
      length_insertDescBy, List.length_cons]
    omega

lemma length_sortDescBy {α : Type} (lt : α → α → Bool) (l : List α) :
    (sortDescBy lt l).length = l.length := by
  simp [sortDescBy, length_foldl_insertDescBy]

lemma snd_mem_of_mem_enumFrom {α : Type} :
    ∀ (l : List α) (n : ℕ) (e : ℕ × α), e ∈ List.enumFrom n l → e.2 ∈ l
  | [], _, _ => by simp
  | x :: t, n, e => by
    intro he
    rcases (List.mem_cons).mp he with h | h
    · subst h; exact List.mem_cons_self _ _
    · exact List.mem_cons_of_mem _ (snd_mem_of_mem_enumFrom t (n + 1) e h)

/-- Concrete 2x2 projected grid whose pixels are 5 km2 each. -/
def c6Grid : Grid :=
  { H := 2, W := 2, crsIsWgs84 := false, pixelAreaGeoKm2 := 0,
    xres := 5000, yres := 1000 }

/-- A 2x2 all-above-threshold run whose single connected component
passes the pixel-count cutoff (4 pixels, minimum 2) but whose exact
polygon area, 8 km2, is below `min_area_km2 = 10`. -/
def c6SmallRun : List Target :=
  extract_targets c6Grid (fun _ => RVal.val 1) (1/2) 10
    (EvidenceCtx.coastal c2Layers c2Thr) (fun _ => 8) (fun _ => (0, 0))
    (fun _ => none) (fun _ => none) (fun _ => "t")

/-- C6: (1) every target emitted by `extract_targets` carries the exact
polygon area computed by the geodesic area function and that area is at
least `min_area_km2`; (2) the concrete 2x2 above-threshold region whose
exact area (8 km2) is below the 10 km2 minimum yields zero targets even
though it passes the pixel-count cutoff; (3) when every connected
component of the threshold mask passes both the pixel-count cutoff and
the exact-area minimum, exactly one target is emitted per component. -/
theorem c6_exact_area_filter :
    (∀ (g : Grid) (score : Pix → RVal) (threshold min_area_km2 : ℚ)
        (ectx : EvidenceCtx) (areaFn : List Pix → ℚ)
        (centroidFn : List Pix → ℚ × ℚ)
        (roadsDist riversDist : List Pix → Option ℚ) (ids : ℕ → String)
        (t : Target),
      t ∈ extract_targets g score threshold min_area_km2 ectx areaFn
          centroidFn roadsDist riversDist ids →
      t.area_km2 = areaFn t.pixels ∧ min_area_km2 ≤ t.area_km2) ∧
    c6SmallRun = [] ∧
    (∀ (g : Grid) (score : Pix → RVal) (threshold min_area_km2 : ℚ)
        (ectx : EvidenceCtx) (areaFn : List Pix → ℚ)
        (centroidFn : List Pix → ℚ × ℚ)
        (roadsDist riversDist : List Pix → Option ℚ) (ids : ℕ → String),
      (∀ c ∈ compsList
          ((allPixels g.H g.W).filter fun p => (score p).geb threshold),
        (max (pyTrunc (min_area_km2 /
            (if g.crsIsWgs84 then g.pixelAreaGeoKm2
             else |g.xres * g.yres| / 1000000))) 1).toNat ≤ c.length ∧
        ¬ areaFn c < min_area_km2) →
      (extract_targets g score threshold min_area_km2 ectx areaFn
          centroidFn roadsDist riversDist ids).length =
        (compsList
          ((allPixels g.H g.W).filter fun p => (score p).geb threshold)).length) := by
  refine ⟨?_, by decide, ?_⟩
  · intro g score threshold min_area_km2 ectx areaFn centroidFn rd rv ids t ht
    simp only [extract_targets] at ht
    rw [mem_sortDescBy] at ht
    obtain ⟨e, he, rfl⟩ := List.mem_map.mp ht
    have he2 := snd_mem_of_mem_enumFrom _ 0 e he
    have hf := (List.mem_filter.mp he2).2
    simp only [Bool.not_eq_eq_eq_not, Bool.not_true, decide_eq_false_iff_not,
      not_lt] at hf
    exact ⟨rfl, hf⟩
  · intro g score threshold min_area_km2 ectx areaFn centroidFn rd rv ids h
    simp only [extract_targets]
    have hbig :
        ((allPixels g.H g.W).filter fun p => (score p).geb threshold).filter
          (fun p => decide ((max (pyTrunc (min_area_km2 /
              (if g.crsIsWgs84 then g.pixelAreaGeoKm2
               else |g.xres * g.yres| / 1000000))) 1).toNat ≤
            (component ((allPixels g.H g.W).filter
              fun p => (score p).geb threshold) p).length)) =
          (allPixels g.H g.W).filter fun p => (score p).geb threshold := by
      apply List.filter_eq_self.mpr
      intro p hp
      have hc : component ((allPixels g.H g.W).filter
          fun p => (score p).geb threshold) p ∈ compsList
            ((allPixels g.H g.W).filter fun p => (score p).geb threshold) :=
        List.mem_dedup.mpr (List.mem_map_of_mem _ hp)
      exact decide_eq_true ((h _ hc).1)
    rw [hbig]
    have hkept :
        (compsList ((allPixels g.H g.W).filter fun p => (score p).geb threshold)).filter
          (fun c => ! decide (areaFn c < min_area_km2)) =
          compsList ((allPixels g.H g.W).filter fun p => (score p).geb threshold) := by
      apply List.filter_eq_self.mpr
      intro c hc
      simp [decide_eq_false ((h c hc).2)]
    rw [hkept, length_sortDescBy, List.length_map, List.enum_length]

/-- Placeholder target used as the `getD` default. -/
def dummyTarget : Target :=
  { id := "", pixels := [], area_km2 := 0, centroid := (0, 0),
    mean_score := RVal.nan, max_score := RVal.nan,
    distance_to_road_m := none, distance_to_river_m := none,
    evidence := [], evidence_summary := [] }

/-- A 1x1 run whose single component passes both area checks. -/
def c6BigRun : List Target :=
  extract_targets c2Grid (fun _ => RVal.val 1) 0 1
    (EvidenceCtx.coastal c2Layers c2Thr) (fun _ => 1) (fun _ => (0, 0))
    (fun _ => none) (fun _ => none) (fun _ => "w")

/-- C6 witness: the area bound and the one-target-per-component count
instantiated on a concrete passing run. -/
theorem c6_exact_area_filter_witness :
    ((c6BigRun.getD 0 dummyTarget).area_km2 = 1 ∧
      (1 : ℚ) ≤ (c6BigRun.getD 0 dummyTarget).area_km2) ∧
    c6BigRun.length = 1 := by
  constructor
  · have hmem : c6BigRun.getD 0 dummyTarget ∈ c6BigRun := by decide
    have h := c6_exact_area_filter.1 c2Grid (fun _ => RVal.val 1) 0 1
      (EvidenceCtx.coastal c2Layers c2Thr) (fun _ => 1) (fun _ => (0, 0))
      (fun _ => none) (fun _ => none) (fun _ => "w") _ hmem
    exact ⟨h.1, h.2⟩
  · have h := c6_exact_area_filter.2.2 c2Grid (fun _ => RVal.val 1) 0 1
      (EvidenceCtx.coastal c2Layers c2Thr) (fun _ => 1) (fun _ => (0, 0))
      (fun _ => none) (fun _ => none) (fun _ => "w") (by decide)
    rw [show c6BigRun = extract_targets c2Grid (fun _ => RVal.val 1) 0 1
      (EvidenceCtx.coastal c2Layers c2Thr) (fun _ => 1) (fun _ => (0, 0))
      (fun _ => none) (fun _ => none) (fun _ => "w") from rfl, h]
    decide

/-- The evidence metric map of the C7 scenario. -/
def c7Evidence : List (String × RVal) :=
  [("pct_near_coast", RVal.val (8/10)), ("pct_low_slope", RVal.val (6/10)),
   ("pct_low_ndvi", RVal.val (4/10)), ("pct_high_bsi", RVal.val (9/10)),
   ("pct_near_river", RVal.val (1/10))]

/-- Evidence with a tie between the first two coastal candidates. -/
def c7TieEvidence : List (String × RVal) :=
  [("pct_near_coast", RVal.val (1/2)), ("pct_low_slope", RVal.val (1/2))]

/-- C7: evidence chip selection is a pure function of the metrics that
selects at most three candidates, each with a strictly positive metric
drawn from the fixed mode-specific candidate list, descending by metric
with ties kept in candidate-list order; on the scenario metrics the
selected labels are exactly the high-BSI, near-coastline and low-slope
labels, in that order, and an exact tie keeps the candidate-list
order. -/
theorem c7_evidence_chip_selection :
    evidence_chips c7Evidence Mode.coastal =
      ["High sandiness (BSI top 30%)", "Near coastline (<30 km)",
       "Low slope (<=5°)"] ∧
    evidence_chips c7TieEvidence Mode.coastal =
      ["Near coastline (<30 km)", "Low slope (<=5°)"] ∧
    (∀ (ev : List (String × RVal)) (mode : Mode),
      (evidence_chips ev mode).length ≤ 3) ∧
    (∀ (ev : List (String × RVal)) (mode : Mode) (l : String),
      l ∈ evidence_chips ev mode →
      ∃ v, (l, v) ∈ chipCandidates ev mode ∧ v.gtb 0 = true) := by
  refine ⟨by decide, by decide, ?_, ?_⟩
  · intro ev mode
    calc (evidence_chips ev mode).length
        ≤ ((sortDescBy (fun a b => RVal.ltv a.2 b.2)
            (chipCandidates ev mode)).take 3).length := by
          simp only [evidence_chips, List.length_map]
          exact List.length_filter_le _ _
      _ ≤ 3 := by
          rw [List.length_take]
          exact min_le_left _ _
  · intro ev mode l hl
    simp only [evidence_chips, List.mem_map] at hl
    obtain ⟨c, hc, rfl⟩ := hl
    have h1 := List.mem_filter.mp hc
    refine ⟨c.2, ?_, h1.2⟩
    have h2 : c ∈ sortDescBy (fun a b => RVal.ltv a.2 b.2)
        (chipCandidates ev mode) := List.take_subset _ _ h1.1
    exact (mem_sortDescBy _ _ _).mp h2

/-- C7 witness: the selection property instantiated at the scenario
metrics and the high-BSI label. -/
theorem c7_evidence_chip_selection_witness :
    ∃ v, ("High sandiness (BSI top 30%)", v) ∈
        chipCandidates c7Evidence Mode.coastal ∧ v.gtb 0 = true :=
  c7_evidence_chip_selection.2.2.2 c7Evidence Mode.coastal
    "High sandiness (BSI top 30%)" (by decide)

lemma clip01_nan_or_inUnit (v : RVal) :
    v.clip 0 1 = RVal.nan ∨ RVal.inUnit (v.clip 0 1) := by
  cases v with
  | nan => exact Or.inl rfl
  | val q =>
    right
    refine ⟨min 1 (max 0 q), rfl, ?_, min_le_left _ _⟩
    exact le_min (by norm_num) (le_max_left _ _)

/-- C3 counterexample: a coastal pixel whose NDWI input is NaN while
every other input is numeric gets final score 0, not NaN — the NaN
comparison `ndwi < threshold` is false, so the water mask zeroes the
pixel instead of propagating the NaN. -/
theorem c3_nan_propagation_counterexample :
    (coastal_score (n := 1) (fun _ => RVal.val 0) (fun _ => RVal.nan)
        (fun _ => RVal.val 0) (fun _ => RVal.val 0) (fun _ => RVal.val 0)
        (fun _ => RVal.val 0) {}).1 0 = RVal.val 0 ∧
      RVal.val 0 ≠ RVal.nan :=
  ⟨by decide, by decide⟩

/-- C3 (amended): NaN propagates to the final score through every input
consumed arithmetically — for the coastal scorer NDVI, slope and the
two distances always, and BSI when its percentile range is
non-degenerate; for the hardrock scorer NDVI and a present geology mask
always, and lineaments when non-degenerate.  A NaN NDWI pixel instead
fails the water test, so with a numeric pre-mask sum its score is
exactly 0 (both modes); a NaN slope pixel in the hardrock relief term
contributes 0 rather than NaN.  Every output pixel is NaN or lies in
[0,1]. -/
theorem c3_nan_policy :
    (∀ {n : ℕ} (ndvi ndwi bsi slope dc dr : Raster n) (p : CoastalParams)
        (i : Fin n),
      (ndvi i = RVal.nan ∨ slope i = RVal.nan ∨ dc i = RVal.nan ∨
        dr i = RVal.nan) →
      (coastal_score ndvi ndwi bsi slope dc dr p).1 i = RVal.nan) ∧
    (∀ {n : ℕ} (ndvi ndwi bsi slope dc dr : Raster n) (p : CoastalParams)
        (i : Fin n),
      bsi i = RVal.nan →
      (nanpercentile (List.ofFn bsi) 98).sub
        (nanpercentile (List.ofFn bsi) p.bsi_percentile) ≠ RVal.val 0 →
      (coastal_score ndvi ndwi bsi slope dc dr p).1 i = RVal.nan) ∧
    (∀ {n : ℕ} (ndvi ndwi bsi slope dc dr : Raster n) (p : CoastalParams)
        (i : Fin n),
      ndwi i = RVal.nan →
      coastal_pre ndvi bsi slope dc dr p i ≠ RVal.nan →
      (coastal_score ndvi ndwi bsi slope dc dr p).1 i = RVal.val 0) ∧
    (∀ {n : ℕ} (ndvi ndwi slope lineaments : Raster n)
        (geology : Option (Raster n)) (p : HardrockParams) (i : Fin n),
      ndwi i = RVal.nan →
      hardrock_pre ndvi slope lineaments geology p i ≠ RVal.nan →
      (hardrock_score ndvi ndwi slope lineaments geology p).1 i = RVal.val 0) ∧
    (∀ {n : ℕ} (ndvi ndwi bsi slope dc dr : Raster n) (p : CoastalParams)
        (i : Fin n),
      (coastal_score ndvi ndwi bsi slope dc dr p).1 i = RVal.nan ∨
        RVal.inUnit ((coastal_score ndvi ndwi bsi slope dc dr p).1 i)) ∧
    (∀ {n : ℕ} (ndvi ndwi slope lineaments : Raster n)
        (geology : Option (Raster n)) (p : HardrockParams) (i : Fin n),
      (hardrock_score ndvi ndwi slope lineaments geology p).1 i = RVal.nan ∨
        RVal.inUnit ((hardrock_score ndvi ndwi slope lineaments geology p).1 i)) ∧
    (∀ {n : ℕ} (ndvi ndwi slope lineaments : Raster n)
        (geology : Option (Raster n)) (p : HardrockParams) (i : Fin n),
      ndvi i = RVal.nan →
      (hardrock_score ndvi ndwi slope lineaments geology p).1 i = RVal.nan) ∧
    (∀ {n : ℕ} (ndvi ndwi slope lineaments : Raster n)
        (geology : Option (Raster n)) (p : HardrockParams) (i : Fin n),
      lineaments i = RVal.nan →
      (nanpercentile (List.ofFn lineaments) 98).sub
        (nanpercentile (List.ofFn lineaments) p.lineament_percentile) ≠
          RVal.val 0 →
      (hardrock_score ndvi ndwi slope lineaments geology p).1 i = RVal.nan) ∧
    (∀ {n : ℕ} (ndvi ndwi slope lineaments : Raster n)
        (gm : Raster n) (p : HardrockParams) (i : Fin n),
      gm i = RVal.nan →
      (hardrock_score ndvi ndwi slope lineaments (some gm) p).1 i = RVal.nan) ∧
    (∀ {n : ℕ} (slope : Raster n) (smin smax : ℚ) (i : Fin n),
      slope i = RVal.nan → relief_score slope smin smax i = RVal.val 0) := by
  refine ⟨?_, ?_, ?_, ?_, ?_, ?_, ?_, ?_, ?_, ?_⟩
  · intro n ndvi ndwi bsi slope dc dr p i h
    rcases h with h | h | h | h <;> simp [coastal_score, coastal_pre, h]
  · intro n ndvi ndwi bsi slope dc dr p i h hnd
    have hs : percentile_scale bsi p.bsi_percentile 98 i = RVal.nan := by
      simp [percentile_scale, hnd, h]
    simp [coastal_score, coastal_pre, hs]
  · intro n ndvi ndwi bsi slope dc dr p i hndwi hpre
    obtain ⟨q, hq⟩ : ∃ q, coastal_pre ndvi bsi slope dc dr p i = RVal.val q := by
      cases hp : coastal_pre ndvi bsi slope dc dr p i with
      | nan => exact absurd hp hpre
      | val q => exact ⟨q, rfl⟩
    simp [coastal_score, hndwi, hq]
  · intro n ndvi ndwi slope lineaments geology p i hndwi hpre
    obtain ⟨q, hq⟩ :
        ∃ q, hardrock_pre ndvi slope lineaments geology p i = RVal.val q := by
      cases hp : hardrock_pre ndvi slope lineaments geology p i with
      | nan => exact absurd hp hpre
      | val q => exact ⟨q, rfl⟩
    simp [hardrock_score, hndwi, hq]
  · intro n ndvi ndwi bsi slope dc dr p i
    simp only [coastal_score]
    exact clip01_nan_or_inUnit _
  · intro n ndvi ndwi slope lineaments geology p i
    simp only [hardrock_score]
    exact clip01_nan_or_inUnit _
  · intro n ndvi ndwi slope lineaments geology p i h
    cases geology <;> simp [hardrock_score, hardrock_pre, h]
  · intro n ndvi ndwi slope lineaments geology p i h hnd
    have hs : percentile_scale lineaments p.lineament_percentile 98 i =
        RVal.nan := by
      simp [percentile_scale, hnd, h]
    cases geology <;> simp [hardrock_score, hardrock_pre, hs]
  · intro n ndvi ndwi slope lineaments gm p i h
    simp [hardrock_score, hardrock_pre, h]
  · intro n slope smin smax i h
    simp [relief_score, h]

/-- C3 witness: the propagation and zeroing clauses instantiated at
concrete one-pixel rasters. -/
theorem c3_nan_policy_witness :
    (coastal_score (n := 1) (fun _ => RVal.nan) (fun _ => RVal.val 0)
        (fun _ => RVal.val 0) (fun _ => RVal.val 0) (fun _ => RVal.val 0)
        (fun _ => RVal.val 0) {}).1 0 = RVal.nan ∧
    relief_score (n := 1) (fun _ => RVal.nan) 2 25 0 = RVal.val 0 := by
  constructor
  · exact c3_nan_policy.1 _ _ _ _ _ _ {} 0 (Or.inl rfl)
  · exact c3_nan_policy.2.2.2.2.2.2.2.2.2 (fun _ => RVal.nan) 2 25 0 rfl

lemma length_insertAsc (x : ℚ) : ∀ l : List ℚ, (insertAsc x l).length = l.length + 1
  | [] => rfl
  | y :: ys => by
    by_cases h : x ≤ y
    · simp [insertAsc, h]
    · simp [insertAsc, h, length_insertAsc x ys]

lemma length_foldr_insertAsc :
    ∀ l : List ℚ, (List.foldr insertAsc [] l).length = l.length
  | [] => rfl
  | x :: t => by
    simp [List.foldr_cons, length_insertAsc, length_foldr_insertAsc t]

lemma length_sortAsc (l : List ℚ) : (sortAsc l).length = l.length :=
  length_foldr_insertAsc l

lemma sortAsc_ne_nil {l : List ℚ} (h : l ≠ []) : sortAsc l ≠ [] := by
  intro hs
  apply h
  have := length_sortAsc l
  rw [hs] at this
  exact List.length_eq_zero.mp this.symm

lemma nanpercentile_isVal (l : List RVal) (p : ℚ) (hp0 : 0 ≤ p)
    (hp1 : p ≤ 100) (h : sortAsc (nonNanVals l) ≠ []) :
    ∃ q, nanpercentile l p = RVal.val q := by
  rw [nanpercentile, if_neg (by push_neg; exact ⟨hp0, hp1⟩)]
  cases hsl : sortAsc (nonNanVals l) with
  | nil => exact absurd hsl h
  | cons x xs => exact ⟨_, rfl⟩

lemma mem_nonNanVals_of_apply {n : ℕ} (r : Raster n) (i : Fin n) (b : ℚ)
    (h : r i = RVal.val b) : b ∈ nonNanVals (List.ofFn r) := by
  apply List.mem_filterMap.mpr
  refine ⟨RVal.val b, ?_, rfl⟩
  exact (List.mem_ofFn _ _).mpr ⟨i, h⟩

lemma percentile_scale_isVal {n : ℕ} (r : Raster n) (pl ph : ℚ)
    (hpl0 : 0 ≤ pl) (hpl1 : pl ≤ 100) (hph0 : 0 ≤ ph) (hph1 : ph ≤ 100)
    (i : Fin n) (hri : r i ≠ RVal.nan) :
    ∃ q, percentile_scale r pl ph i = RVal.val q := by
  by_cases hdeg : (nanpercentile (List.ofFn r) ph).sub
      (nanpercentile (List.ofFn r) pl) = RVal.val 0
  · exact ⟨0, by simp [percentile_scale, hdeg]⟩
  · obtain ⟨b, hb⟩ : ∃ b, r i = RVal.val b := by
      cases hr : r i with
      | nan => exact absurd hr hri
      | val b => exact ⟨b, rfl⟩
    have hne : sortAsc (nonNanVals (List.ofFn r)) ≠ [] := by
      apply sortAsc_ne_nil
      intro hnil
      have := mem_nonNanVals_of_apply r i b hb
      rw [hnil] at this
      exact absurd this (List.not_mem_nil b)
    obtain ⟨a, ha⟩ := nanpercentile_isVal (List.ofFn r) pl hpl0 hpl1 hne
    obtain ⟨c, hc⟩ := nanpercentile_isVal (List.ofFn r) ph hph0 hph1 hne
    have hsub0 : c - a ≠ 0 := by
      intro h0
      apply hdeg
      rw [ha, hc, rval_sub_val_val, h0]
    refine ⟨min 1 (max 0 ((b - a) / (c - a))), ?_⟩
    simp [percentile_scale, hdeg, ha, hc, hb, rval_div_val_val, hsub0]

lemma coastal_pre_isVal {n : ℕ}
    (ndvi bsi slope dc dr : Raster n) (p : CoastalParams) (i : Fin n)
    (hc : 0 < p.coast_max_m) (hs : 0 < p.slope_max) (hn : 0 < p.ndvi_max)
    (hr : 0 < p.river_max_m) (hb0 : 0 ≤ p.bsi_percentile)
    (hb1 : p.bsi_percentile ≤ 100)
    (h1 : ndvi i ≠ RVal.nan) (h2 : bsi i ≠ RVal.nan) (h3 : slope i ≠ RVal.nan)
    (h4 : dc i ≠ RVal.nan) (h5 : dr i ≠ RVal.nan) :
    ∃ q, coastal_pre ndvi bsi slope dc dr p i = RVal.val q := by
  obtain ⟨v1, hv1⟩ : ∃ v, ndvi i = RVal.val v := by
    cases hx : ndvi i with
    | nan => exact absurd hx h1
    | val v => exact ⟨v, rfl⟩
  obtain ⟨v3, hv3⟩ : ∃ v, slope i = RVal.val v := by
    cases hx : slope i with
    | nan => exact absurd hx h3
    | val v => exact ⟨v, rfl⟩
  obtain ⟨v4, hv4⟩ : ∃ v, dc i = RVal.val v := by
    cases hx : dc i with
    | nan => exact absurd hx h4
    | val v => exact ⟨v, rfl⟩
  obtain ⟨v5, hv5⟩ : ∃ v, dr i = RVal.val v := by
    cases hx : dr i with
    | nan => exact absurd hx h5
    | val v => exact ⟨v, rfl⟩
  obtain ⟨vs, hvs⟩ := percentile_scale_isVal bsi p.bsi_percentile 98 hb0 hb1
    (by norm_num) (by norm_num) i h2
  simp only [coastal_pre, hv1, hv3, hv4, hv5, hvs, rval_div_val_val,
    hc.ne', hs.ne', hn.ne', hr.ne', if_false, rval_sub_val_val,
    rval_clip_val, rval_mul_val_val, rval_add_val_val]
  exact ⟨_, rfl⟩

/-- C4 counterexample: with NDWI = 0.2 at every pixel (at or above the
default water threshold 0.1), a NaN value in another input layer (NDVI)
makes the final coastal score NaN, not 0 — the claimed "exactly 0
regardless of the values of the other input layers" fails on NaN
values. -/
theorem c4_water_zeroing_counterexample :
    ((RVal.val (2/10)).geb ({} : CoastalParams).ndwi_water_max = true) ∧
    (coastal_score (n := 1) (fun _ => RVal.nan) (fun _ => RVal.val (2/10))
        (fun _ => RVal.val 0) (fun _ => RVal.val 0) (fun _ => RVal.val 0)
        (fun _ => RVal.val 0) {}).1 0 = RVal.nan ∧
    RVal.nan ≠ RVal.val 0 :=
  ⟨by decide, by decide, by decide⟩

/-- C4 (amended): the coastal water mask is a multiplicative hard mask
(the score is the pre-mask weighted sum times the 0/1 indicator of
`ndwi < threshold`, then clipped), and when NDWI is at or above the
water threshold at every pixel, every pixel at which all the other
input layers are numeric (with positive divisor thresholds and a
percentile in [0,100]) has final score exactly 0, whatever those other
values are; NaN pixels in the other layers yield NaN instead. -/
theorem c4_water_zeroing
    {n : ℕ} (ndvi ndwi bsi slope dc dr : Raster n) (p : CoastalParams)
    (hc : 0 < p.coast_max_m) (hs : 0 < p.slope_max) (hn : 0 < p.ndvi_max)
    (hr : 0 < p.river_max_m) (hb0 : 0 ≤ p.bsi_percentile)
    (hb1 : p.bsi_percentile ≤ 100)
    (hw : ∀ i, (ndwi i).geb p.ndwi_water_max = true) :
    (∀ i, (coastal_score ndvi ndwi bsi slope dc dr p).1 i =
      ((coastal_pre ndvi bsi slope dc dr p i).mul
        (if (ndwi i).ltb p.ndwi_water_max then RVal.val 1 else RVal.val 0)).clip
          0 1) ∧
    (∀ i, ndvi i ≠ RVal.nan → bsi i ≠ RVal.nan → slope i ≠ RVal.nan →
      dc i ≠ RVal.nan → dr i ≠ RVal.nan →
      (coastal_score ndvi ndwi bsi slope dc dr p).1 i = RVal.val 0) := by
  constructor
  · intro i
    rfl
  · intro i h1 h2 h3 h4 h5
    obtain ⟨q, hq⟩ := coastal_pre_isVal ndvi bsi slope dc dr p i hc hs hn hr
      hb0 hb1 h1 h2 h3 h4 h5
    obtain ⟨w, hwv, hwge⟩ : ∃ w, ndwi i = RVal.val w ∧ p.ndwi_water_max ≤ w := by
      have := hw i
      cases hx : ndwi i with
      | nan => rw [hx] at this; exact absurd this (by simp)
      | val w =>
        rw [hx] at this
        exact ⟨w, rfl, by simpa using this⟩
    have hmask : (ndwi i).ltb p.ndwi_water_max = false := by
      rw [hwv]
      simpa using not_lt.mpr hwge
    simp [coastal_score, hq, hmask]

/-- C4 witness: the zeroing clause instantiated at one-pixel rasters
with NDWI 0.2 against the default parameters. -/
theorem c4_water_zeroing_witness :
    (coastal_score (n := 1) (fun _ => RVal.val 0) (fun _ => RVal.val (2/10))
        (fun _ => RVal.val 0) (fun _ => RVal.val 0) (fun _ => RVal.val 0)
        (fun _ => RVal.val 0) {}).1 0 = RVal.val 0 := by
  have h := c4_water_zeroing (n := 1) (fun _ => RVal.val 0)
    (fun _ => RVal.val (2/10)) (fun _ => RVal.val 0) (fun _ => RVal.val 0)
    (fun _ => RVal.val 0) (fun _ => RVal.val 0) {}
    (by norm_num) (by norm_num) (by norm_num) (by norm_num)
    (by norm_num) (by norm_num)
    (fun i => show (RVal.val (2/10)).geb
      ({} : CoastalParams).ndwi_water_max = true by decide)
  exact h.2 0 (by decide) (by decide) (by decide) (by decide) (by decide)

lemma nonNanVals_ofFn_val {n : ℕ} (f : Fin n → ℚ) :
    nonNanVals (List.ofFn (fun i => RVal.val (f i))) = List.ofFn f := by
  induction n with
  | zero => rfl
  | succ m ih =>
    rw [List.ofFn_succ, List.ofFn_succ]
    simpa [nonNanVals] using ih (fun i => f i.succ)

lemma sortAsc_eq_of_sorted : ∀ l : List ℚ, l.Sorted (· ≤ ·) → sortAsc l = l
  | [], _ => rfl
  | x :: t, h => by
    have ht := sortAsc_eq_of_sorted t h.of_cons
    show insertAsc x (sortAsc t) = x :: t
    rw [ht]
    cases t with
    | nil => rfl
    | cons y ys =>
      have hxy : x ≤ y := List.rel_of_sorted_cons h y (List.mem_cons_self y ys)
      simp [insertAsc, hxy]

lemma nanpercentile_zero (l : List RVal) (x : ℚ) (xs : List ℚ)
    (h : sortAsc (nonNanVals l) = x :: xs) : nanpercentile l 0 = RVal.val x := by
  rw [nanpercentile, if_neg (by norm_num), h]
  simp

lemma nanpercentile_hundred (l : List RVal) (x : ℚ) (xs : List ℚ)
    (h : sortAsc (nonNanVals l) = x :: xs) :
    nanpercentile l 100 = RVal.val ((x :: xs).getD xs.length x) := by
  rw [nanpercentile, if_neg (by norm_num), h]
  have h100 : (100 : ℚ) / 100 * ((((x :: xs).length : ℕ) : ℚ) - 1) =
      (xs.length : ℚ) := by
    push_cast [List.length_cons]
    ring
  simp only [h100, Int.floor_natCast, Int.toNat_natCast, sub_self, zero_mul,
    add_zero]

/-- Raster [0, 1, NaN] used for the C5 counterexample. -/
def c5Raster : Raster 3 :=
  fun i => if (i : ℕ) = 0 then RVal.val 0
           else if (i : ℕ) = 1 then RVal.val 1 else RVal.nan

/-- C5 counterexample: on the raster [0, 1, NaN] rescaled at the
0th/100th percentiles, the NaN pixel's output is NaN, which does not
lie in [0,1] — "output lies in [0,1] for every input raster" fails on
rasters containing NaN. -/
theorem c5_percentile_range_counterexample :
    percentile_scale c5Raster 0 100 2 = RVal.nan ∧
      ¬ RVal.inUnit (percentile_scale c5Raster 0 100 2) := by
  have h : percentile_scale c5Raster 0 100 2 = RVal.nan := by decide
  refine ⟨h, ?_⟩
  rw [h]
  rintro ⟨q, hq, -⟩
  exact absurd hq (by simp)

/-- C5 (amended): with percentiles in [0,100], every numeric input pixel
yields a normalizer output in [0,1], while a NaN input pixel yields NaN
(non-degenerate case) or 0 (degenerate zeroing); a linearly spaced
raster rescaled at the 0th/100th percentiles maps its first pixel to
exactly 0, its last to exactly 1, with every pixel in [0,1]; in the
degenerate equal-percentile case the output is identically 0 without an
error. -/
theorem c5_percentile_normalizer :
    (∀ {n : ℕ} (r : Raster n) (pl ph : ℚ), 0 ≤ pl → pl ≤ 100 → 0 ≤ ph →
      ph ≤ 100 → ∀ i : Fin n,
      (r i ≠ RVal.nan → RVal.inUnit (percentile_scale r pl ph i)) ∧
      (r i = RVal.nan → percentile_scale r pl ph i = RVal.nan ∨
        percentile_scale r pl ph i = RVal.val 0)) ∧
    (∀ (a d : ℚ) (m : ℕ), 0 < d → 2 ≤ m → ∀ k : Fin m,
      RVal.inUnit (percentile_scale
        (fun j : Fin m => RVal.val (a + (j : ℕ) * d)) 0 100 k) ∧
      ((k : ℕ) = 0 → percentile_scale
        (fun j : Fin m => RVal.val (a + (j : ℕ) * d)) 0 100 k = RVal.val 0) ∧
      ((k : ℕ) = m - 1 → percentile_scale
        (fun j : Fin m => RVal.val (a + (j : ℕ) * d)) 0 100 k = RVal.val 1)) ∧
    (∀ {n : ℕ} (r : Raster n) (pl ph : ℚ),
      (nanpercentile (List.ofFn r) ph).sub (nanpercentile (List.ofFn r) pl) =
        RVal.val 0 →
      ∀ i, percentile_scale r pl ph i = RVal.val 0) := by
  refine ⟨?_, ?_, ?_⟩
  · intro n r pl ph hpl0 hpl1 hph0 hph1 i
    constructor
    · intro hri
      by_cases hdeg : (nanpercentile (List.ofFn r) ph).sub
          (nanpercentile (List.ofFn r) pl) = RVal.val 0
      · have h0 : percentile_scale r pl ph i = RVal.val 0 := by
          simp [percentile_scale, hdeg]
        rw [h0]
        exact ⟨0, rfl, le_refl 0, by norm_num⟩
      · obtain ⟨b, hb⟩ : ∃ b, r i = RVal.val b := by
          cases hx : r i with
          | nan => exact absurd hx hri
          | val b => exact ⟨b, rfl⟩
        have hne : sortAsc (nonNanVals (List.ofFn r)) ≠ [] := by
          apply sortAsc_ne_nil
          intro hnil
          have := mem_nonNanVals_of_apply r i b hb
          rw [hnil] at this
          exact absurd this (List.not_mem_nil b)
        obtain ⟨A, hA⟩ := nanpercentile_isVal (List.ofFn r) pl hpl0 hpl1 hne
        obtain ⟨B, hB⟩ := nanpercentile_isVal (List.ofFn r) ph hph0 hph1 hne
        have hBA : B - A ≠ 0 := by
          intro h0
          exact hdeg (by rw [hA, hB, rval_sub_val_val, h0])
        have hout : percentile_scale r pl ph i =
            RVal.val (min 1 (max 0 ((b - A) / (B - A)))) := by
          simp [percentile_scale, hdeg, hb, hA, hB, rval_div_val_val, hBA]
        rw [hout]
        exact ⟨_, rfl, le_min (by norm_num) (le_max_left _ _), min_le_left _ _⟩
    · intro hri
      by_cases hdeg : (nanpercentile (List.ofFn r) ph).sub
          (nanpercentile (List.ofFn r) pl) = RVal.val 0
      · right
        simp [percentile_scale, hdeg]
      · left
        simp [percentile_scale, hdeg, hri]
  · intro a d m hd hm k
    obtain ⟨m', rfl⟩ : ∃ m', m = m' + 2 := ⟨m - 2, by omega⟩
    have hnn : nonNanVals (List.ofFn
        (fun j : Fin (m' + 2) => RVal.val (a + (j : ℕ) * d))) =
        List.ofFn (fun j : Fin (m' + 2) => a + (j : ℕ) * d) :=
      nonNanVals_ofFn_val _
    have hsorted : (List.ofFn
        (fun j : Fin (m' + 2) => a + (j : ℕ) * d)).Sorted (· ≤ ·) := by
      refine List.pairwise_ofFn.mpr ?_
      intro i j hij
      have hv : ((i : ℕ) : ℚ) ≤ ((j : ℕ) : ℚ) := by
        exact_mod_cast Nat.le_of_lt hij
      have := mul_le_mul_of_nonneg_right hv hd.le
      linarith
    have hsa : sortAsc (nonNanVals (List.ofFn
        (fun j : Fin (m' + 2) => RVal.val (a + (j : ℕ) * d)))) =
        (fun j : Fin (m' + 2) => a + (j : ℕ) * d) 0 ::
          List.ofFn (fun j : Fin (m' + 1) =>
            (fun j : Fin (m' + 2) => a + (j : ℕ) * d) j.succ) := by
      rw [hnn, sortAsc_eq_of_sorted _ hsorted]
      exact List.ofFn_succ _
    have h0 : nanpercentile (List.ofFn
        (fun j : Fin (m' + 2) => RVal.val (a + (j : ℕ) * d))) 0 =
        RVal.val (a + ((0 : ℕ) : ℚ) * d) :=
      nanpercentile_zero _ _ _ hsa
    have h100 : nanpercentile (List.ofFn
        (fun j : Fin (m' + 2) => RVal.val (a + (j : ℕ) * d))) 100 =
        RVal.val (a + (((m' + 1 : ℕ)) : ℚ) * d) := by
      rw [nanpercentile_hundred _ _ _ hsa]
      congr 1
      rw [← List.ofFn_succ (fun j : Fin (m' + 2) => a + (j : ℕ) * d)]
      rw [List.getD_eq_getElem _ _ (by simp), List.getElem_ofFn]
      simp
    have hMne : (((m' + 1 : ℕ)) : ℚ) * d ≠ 0 := by
      have : (0 : ℚ) < ((m' + 1 : ℕ) : ℚ) := by positivity
      positivity
    have hdeg : ¬ ((RVal.val (a + (((m' + 1 : ℕ)) : ℚ) * d)).sub
        (RVal.val (a + ((0 : ℕ) : ℚ) * d)) = RVal.val 0) := by
      rw [rval_sub_val_val]
      intro hcon
      apply hMne
      have := RVal.val.inj hcon
      push_cast at this ⊢
      linarith
    have hout : ∀ k : Fin (m' + 2), percentile_scale
        (fun j : Fin (m' + 2) => RVal.val (a + (j : ℕ) * d)) 0 100 k =
        RVal.val (min 1 (max 0 ((((k : ℕ) : ℚ) * d) /
          ((((m' + 1 : ℕ)) : ℚ) * d)))) := by
      intro k
      have hstep : percentile_scale
          (fun j : Fin (m' + 2) => RVal.val (a + (j : ℕ) * d)) 0 100 k =
          (((RVal.val (a + ((k : ℕ) : ℚ) * d)).sub
            (RVal.val (a + ((0 : ℕ) : ℚ) * d))).div
            ((RVal.val (a + (((m' + 1 : ℕ)) : ℚ) * d)).sub
              (RVal.val (a + ((0 : ℕ) : ℚ) * d)))).clip 0 1 := by
        simp only [percentile_scale, h0, h100]
        rw [if_neg hdeg]
      rw [hstep, rval_sub_val_val, rval_sub_val_val]
      have he1 : (a + ((k : ℕ) : ℚ) * d) - (a + ((0 : ℕ) : ℚ) * d) =
          ((k : ℕ) : ℚ) * d := by push_cast; ring
      have he2 : (a + (((m' + 1 : ℕ)) : ℚ) * d) - (a + ((0 : ℕ) : ℚ) * d) =
          (((m' + 1 : ℕ)) : ℚ) * d := by push_cast; ring
      rw [he1, he2, rval_div_val_val, if_neg hMne]
      rfl
    refine ⟨?_, ?_, ?_⟩
    · rw [hout k]
      exact ⟨_, rfl, le_min (by norm_num) (le_max_left _ _), min_le_left _ _⟩
    · intro hk
      rw [hout k, hk]
      norm_num
    · intro hk
      rw [hout k, hk]
      rw [show (m' + 2 - 1 : ℕ) = m' + 1 from by omega]
      rw [div_self hMne]
      norm_num
  · intro n r pl ph hdeg i
    simp [percentile_scale, hdeg]

/-- C5 witness: the linspace clause instantiated on four equally spaced
values with unit step. -/
theorem c5_percentile_normalizer_witness :
    percentile_scale (fun j : Fin 4 => RVal.val (0 + (j : ℕ) * 1)) 0 100 0 =
      RVal.val 0 ∧
    percentile_scale (fun j : Fin 4 => RVal.val (0 + (j : ℕ) * 1)) 0 100 3 =
      RVal.val 1 := by
  have h1 := c5_percentile_normalizer.2.1 0 1 4 (by norm_num) (by norm_num) 0
  have h2 := c5_percentile_normalizer.2.1 0 1 4 (by norm_num) (by norm_num) 3
  exact ⟨h1.2.1 (by decide), h2.2.2 (by decide)⟩

lemma sqPixDist_nonneg (p q : Pix) : 0 ≤ sqPixDist p q := by
  have h1 := sq_nonneg ((p.1 : ℤ) - (q.1 : ℤ))
  have h2 := sq_nonneg ((p.2 : ℤ) - (q.2 : ℤ))
  simp only [sqPixDist]
  linarith

lemma sqPixDist_self (p : Pix) : sqPixDist p p = 0 := by
  simp [sqPixDist]

lemma foldl_min_le_init : ∀ (l : List ℤ) (x : ℤ), l.foldl min x ≤ x
  | [], x => le_refl x
  | y :: ys, x =>
    le_trans (foldl_min_le_init ys (min x y)) (min_le_left x y)

lemma foldl_min_le_mem : ∀ (l : List ℤ) (x a : ℤ), a ∈ l → l.foldl min x ≤ a
  | [], _, _, h => absurd h (List.not_mem_nil _)
  | y :: ys, x, a, h => by
    rcases List.mem_cons.mp h with rfl | h
    · exact le_trans (foldl_min_le_init ys (min x a)) (min_le_right x a)
    · exact foldl_min_le_mem ys (min x y) a h

lemma le_foldl_min (c : ℤ) : ∀ (l : List ℤ) (x : ℤ), c ≤ x →
    (∀ a ∈ l, c ≤ a) → c ≤ l.foldl min x
  | [], x, hx, _ => hx
  | y :: ys, x, hx, hl => by
    simp only [List.foldl_cons]
    exact le_foldl_min c ys (min x y) (le_min hx (hl y (List.mem_cons_self _ _)))
      fun a ha => hl a (List.mem_cons_of_mem _ ha)

lemma minSqDist_zero_of_mem (mask : List Pix) (p : Pix) (hp : p ∈ mask) :
    minSqDist mask p = 0 := by
  rw [minSqDist]
  cases hm : mask.map (sqPixDist p) with
  | nil =>
    exact absurd (List.map_eq_nil_iff.mp hm ▸ hp) (List.not_mem_nil p)
  | cons x xs =>
    have h0mem : (0 : ℤ) ∈ x :: xs := by
      rw [← hm, ← sqPixDist_self p]
      exact List.mem_map_of_mem _ hp
    have hle : xs.foldl min x ≤ 0 := by
      rcases List.mem_cons.mp h0mem with h | h
      · rw [h]; exact foldl_min_le_init xs x
      · exact foldl_min_le_mem xs x 0 h
    have hge : 0 ≤ xs.foldl min x := by
      apply le_foldl_min
      · have : x ∈ mask.map (sqPixDist p) := by rw [hm]; exact List.mem_cons_self _ _
        obtain ⟨q, -, hq⟩ := List.mem_map.mp this
        rw [← hq]; exact sqPixDist_nonneg _ _
      · intro a ha
        have : a ∈ mask.map (sqPixDist p) := by
          rw [hm]; exact List.mem_cons_of_mem _ ha
        obtain ⟨q, -, hq⟩ := List.mem_map.mp this
        rw [← hq]; exact sqPixDist_nonneg _ _
    exact le_antisymm hle hge

/-- C8: `distance_raster` returns the constant sentinel raster 1e6 when
the grid has no CRS or the feature set is absent or empty (no error is
raised: the function is total); in every case the returned value is
non-negative; and in the main branch every pixel burned into the
rasterized feature mask gets distance exactly 0. -/
theorem c8_distance_raster :
    (∀ {G : Type} (g : RefGrid) (lines : Option (List G)) (emptyG : G → Bool)
        (rast : List G → Pix → Bool),
      g.crs = none ∨ lines = none ∨ lines = some [] →
      distance_raster g lines emptyG rast = fun _ => (1000000 : ℝ)) ∧
    (∀ {G : Type} (g : RefGrid) (lines : Option (List G)) (emptyG : G → Bool)
        (rast : List G → Pix → Bool) (p : Pix),
      0 ≤ distance_raster g lines emptyG rast p) ∧
    (∀ {G : Type} (g : RefGrid) (l : List G) (emptyG : G → Bool)
        (rast : List G → Pix → Bool) (c : String) (p : Pix),
      g.crs = some c → (l.filter fun x => ! emptyG x) ≠ [] →
      p ∈ allPixels g.H g.W → rast (l.filter fun x => ! emptyG x) p = true →
      distance_raster g (some l) emptyG rast p = 0) := by
  refine ⟨?_, ?_, ?_⟩
  · intro G g lines emptyG rast h
    rcases h with h | h | h
    · simp [distance_raster, h]
    · subst h
      by_cases hcrs : g.crs = none <;> simp [distance_raster, hcrs]
    · subst h
      by_cases hcrs : g.crs = none <;> simp [distance_raster, hcrs]
  · intro G g lines emptyG rast p
    by_cases h1 : g.crs = none
    · simp [distance_raster, h1]
    · cases lines with
      | none => simp [distance_raster, h1]
      | some l =>
        by_cases h2 : l.isEmpty
        · simp [distance_raster, h1, h2]
        · by_cases h3 : (l.filter fun x => ! emptyG x).isEmpty
          · simp [distance_raster, h1, h2, h3]
          · simp only [distance_raster, h1, h2, h3, Bool.false_eq_true,
              if_false, ite_false]
            exact mul_nonneg (Real.sqrt_nonneg _)
              (by exact_mod_cast abs_nonneg g.xres)
  · intro G g l emptyG rast c p hcrs hne hp hrast
    have h1 : ¬ g.crs = none := by simp [hcrs]
    have h2 : ¬ l.isEmpty = true := by
      intro hl
      apply hne
      rw [List.isEmpty_iff.mp hl]
      rfl
    have h3 : ¬ (l.filter fun x => ! emptyG x).isEmpty = true := by
      intro hl
      exact hne (List.isEmpty_iff.mp hl)
    have hmem : p ∈ (allPixels g.H g.W).filter
        (rast (l.filter fun x => ! emptyG x)) :=
      List.mem_filter.mpr ⟨hp, hrast⟩
    simp [distance_raster, h1, h2, h3, minSqDist_zero_of_mem _ _ hmem]

/-- C8 witness: the zero-distance clause instantiated on a 1x1 grid
with one non-empty feature burned into its only pixel. -/
theorem c8_distance_raster_witness :
    distance_raster (G := Unit)
      { H := 1, W := 1, crs := some "EPSG:32643", xres := 10, yres := 10 }
      (some [()]) (fun _ => false) (fun _ _ => true) (0, 0) = 0 :=
  c8_distance_raster.2.2
    { H := 1, W := 1, crs := some "EPSG:32643", xres := 10, yres := 10 }
    [()] (fun _ => false) (fun _ _ => true) "EPSG:32643" (0, 0)
    rfl (by decide) (by decide) rfl

/-- C9: `_distance_to_lines` returns null exactly when the feature set
is absent or empty; the CRS it measures in is derived from the centroid
by `zone = floor((lon+180)/6) + 1` (Python's `int` truncation agrees
with floor on the valid longitude range) with EPSG base 326 for
latitude >= 0 and 327 otherwise; on a non-empty feature set it returns
the planar distance between the projected polygon and the projected
union of the features, which is exactly 0 whenever the polygon shares a
point with some feature. -/
theorem c9_distance_to_lines :
    (∀ (geom : Set (ℚ × ℚ)) (centroid : ℚ × ℚ)
        (gdf : Option (List (Set (ℚ × ℚ))))
        (proj : String → (ℚ × ℚ) → PlanePt),
      distance_to_lines geom centroid gdf proj = none ↔
        gdf = none ∨ gdf = some []) ∧
    (∀ lon lat : ℚ, -180 ≤ lon →
      utm_crs_from_lonlat lon lat =
        "EPSG:" ++ (if 0 ≤ lat then "326" else "327") ++
          pad2 (⌊(lon + 180) / 6⌋ + 1)) ∧
    (∀ (geom : Set (ℚ × ℚ)) (centroid : ℚ × ℚ)
        (gs : List (Set (ℚ × ℚ))) (proj : String → (ℚ × ℚ) → PlanePt),
      gs ≠ [] →
      distance_to_lines geom centroid (some gs) proj =
        some (setDist
          (proj (utm_crs_from_lonlat centroid.1 centroid.2) '' geom)
          (proj (utm_crs_from_lonlat centroid.1 centroid.2) ''
            {pt | ∃ g ∈ gs, pt ∈ g}))) ∧
    (∀ (geom : Set (ℚ × ℚ)) (centroid : ℚ × ℚ)
        (gs : List (Set (ℚ × ℚ))) (proj : String → (ℚ × ℚ) → PlanePt)
        (x : ℚ × ℚ) (g : Set (ℚ × ℚ)),
      x ∈ geom → g ∈ gs → x ∈ g →
      distance_to_lines geom centroid (some gs) proj = some 0) := by
  have hmain : ∀ (geom : Set (ℚ × ℚ)) (centroid : ℚ × ℚ)
      (gs : List (Set (ℚ × ℚ))) (proj : String → (ℚ × ℚ) → PlanePt),
      gs ≠ [] →
      distance_to_lines geom centroid (some gs) proj =
        some (setDist
          (proj (utm_crs_from_lonlat centroid.1 centroid.2) '' geom)
          (proj (utm_crs_from_lonlat centroid.1 centroid.2) ''
            {pt | ∃ g ∈ gs, pt ∈ g})) := by
    intro geom centroid gs proj h
    cases gs with
    | nil => exact absurd rfl h
    | cons g0 gtail => rfl
  refine ⟨?_, ?_, hmain, ?_⟩
  · intro geom centroid gdf proj
    cases gdf with
    | none => simp [distance_to_lines]
    | some gs =>
      cases gs with
      | nil => simp [distance_to_lines]
      | cons g0 gtail =>
        rw [hmain geom centroid (g0 :: gtail) proj (by simp)]
        simp
  · intro lon lat hlon
    have h6 : 0 ≤ (lon + 180) / 6 := by
      apply div_nonneg (by linarith) (by norm_num)
    simp [utm_crs_from_lonlat, pyTrunc, h6]
  · intro geom centroid gs proj x g hx hg hxg
    rw [hmain geom centroid gs proj (List.ne_nil_of_mem hg)]
    congr 1
    set f := proj (utm_crs_from_lonlat centroid.1 centroid.2)
    have h0S : (0 : ℝ) ∈ {d : ℝ | ∃ a ∈ f '' geom, ∃ b ∈ f ''
        {pt | ∃ g ∈ gs, pt ∈ g}, dist a b = d} := by
      refine ⟨f x, Set.mem_image_of_mem f hx, f x,
        Set.mem_image_of_mem f ⟨g, hg, hxg⟩, dist_self _⟩
    have hlb : ∀ d ∈ {d : ℝ | ∃ a ∈ f '' geom, ∃ b ∈ f ''
        {pt | ∃ g ∈ gs, pt ∈ g}, dist a b = d}, 0 ≤ d := by
      rintro d ⟨a, -, b, -, rfl⟩
      exact dist_nonneg
    refine le_antisymm (csInf_le ⟨0, hlb⟩ h0S) (le_csInf ⟨0, h0S⟩ hlb)

/-- C9 witness: a singleton polygon lying on a feature gets distance
some 0. -/
theorem c9_distance_to_lines_witness :
    distance_to_lines {((0 : ℚ), (0 : ℚ))} (0, 0)
      (some [{((0 : ℚ), (0 : ℚ))}]) (fun _ _ => 0) = some 0 :=
  c9_distance_to_lines.2.2.2 {((0 : ℚ), (0 : ℚ))} (0, 0)
    [{((0 : ℚ), (0 : ℚ))}] (fun _ _ => 0) ((0 : ℚ), (0 : ℚ))
    {((0 : ℚ), (0 : ℚ))} rfl (List.mem_singleton.mpr rfl) rfl

/-- C10: when a geology collection is supplied but no feature's
properties contain any lithology keyword, `_rasterize_geology` returns
None; the hardrock scorer on an absent mask resolves the rescaled
three-weight metadata with geology weight 0, and the evidence engine
without a geology layer reports both geology metrics as 0. -/
theorem c10_geology_keyword_miss :
    (∀ {G : Type} (feats : List (GeoFeature G)) (emptyG : G → Bool)
        (rast : List G → Pix → Bool),
      (∀ f ∈ feats, featureMatches f = false) →
      rasterize_geology (some feats) emptyG rast = none) ∧
    (∀ {n : ℕ} (ndvi ndwi slope lineaments : Raster n) (p : HardrockParams),
      (hardrock_score ndvi ndwi slope lineaments none p).2 =
        { w_lineaments :=
            p.w_lineaments / (p.w_lineaments + p.w_relief + p.w_exposure),
          w_relief :=
            p.w_relief / (p.w_lineaments + p.w_relief + p.w_exposure),
          w_exposure :=
            p.w_exposure / (p.w_lineaments + p.w_relief + p.w_exposure),
          w_geology_boost := 0 }) ∧
    (∀ (L : HardrockLayers) (T : HardrockThr) (polyMask : List Pix),
      L.geology_mask = none →
      lookupEv (compute_evidence (EvidenceCtx.hardrock L T) polyMask)
          "geology_mask_mean" = RVal.val 0 ∧
      lookupEv (compute_evidence (EvidenceCtx.hardrock L T) polyMask)
          "pct_geology_match" = RVal.val 0) := by
  refine ⟨?_, ?_, ?_⟩
  · intro G feats emptyG rast h
    have hfil : feats.filter featureMatches = [] := by
      rw [List.filter_eq_nil_iff]
      intro f hf
      simp [h f hf]
    simp [rasterize_geology, hfil]
  · intro n ndvi ndwi slope lineaments p
    rfl
  · intro L T polyMask hgeo
    cases L
    simp only at hgeo
    subst hgeo
    exact ⟨rfl, rfl⟩

/-- C10 witness: a single feature whose properties mention only basalt
matches no lithology keyword, and the evidence metrics without a
geology layer are 0. -/
theorem c10_geology_keyword_miss_witness :
    rasterize_geology (G := Unit)
      (some [{ props := ["basalt deposits"], geometry := some () }])
      (fun _ => false) (fun _ _ => false) = none ∧
    lookupEv (compute_evidence (EvidenceCtx.hardrock
        { ndvi := fun _ => RVal.val 0, ndwi := fun _ => RVal.val 0,
          slope := fun _ => RVal.val 0, lineaments := fun _ => RVal.val 0,
          geology_mask := none }
        { slope_min := 2, slope_max := 25, ndvi_max := 2/5,
          lineament_threshold_value := 0 }) [(0, 0)])
      "pct_geology_match" = RVal.val 0 := by
  constructor
  · exact c10_geology_keyword_miss.1
      [{ props := ["basalt deposits"], geometry := some () }]
      (fun _ => false) (fun _ _ => false) (by decide)
  · exact (c10_geology_keyword_miss.2.2
      { ndvi := fun _ => RVal.val 0, ndwi := fun _ => RVal.val 0,
        slope := fun _ => RVal.val 0, lineaments := fun _ => RVal.val 0,
        geology_mask := none }
      { slope_min := 2, slope_max := 25, ndvi_max := 2/5,
        lineament_threshold_value := 0 } [(0, 0)] rfl).2

end
